import Mathlib

/-!
Verification of the Sokoban solver (game_state.py and modules/solver.py).

The embedding models Python semantics explicitly where the claims depend on
them: list indexing wraps around for negative indices and raises IndexError
past the end, fallible operations return `Except PyError`, attribute lookup
on a not-yet-assigned field raises AttributeError, and the default object
equality used by Python when a class defines no `__eq__` is reference
identity (modelled with allocation identifiers).
-/

namespace Sokoban

/-- Python runtime errors relevant to this program: IndexError (list index
out of range), ValueError (`raise ValueError('Invalid direction')` in
`move`), AttributeError (reading an instance attribute before it has been
assigned in `__init__`), and TypeError (unpacking `None`, or ordering two
objects that do not define `__lt__`). -/
inductive PyError where
  | indexError
  | valueError
  | attributeError
  | typeError
deriving DecidableEq, Repr

/-- Resolution of a Python list index: an index `i` with `0 <= i < len`
denotes position `i`; a negative index with `-len <= i < 0` wraps around and
denotes position `len + i`; anything else is out of range. -/
def pyNorm (len : Nat) (i : Int) : Option Nat :=
  if 0 ≤ i ∧ i < len then some i.toNat
  else if -(len : Int) ≤ i ∧ i < 0 then some (i + len).toNat
  else none

/-- Python list read `l[i]`: wraps negative indices, raises IndexError out of
range (CPython list.__getitem__). -/
def pyIdx [Inhabited α] (l : List α) (i : Int) : Except PyError α :=
  match pyNorm l.length i with
  | some k => .ok (l.getD k default)
  | none => .error .indexError

/-- Python list write `l[i] = a`: same index resolution as `pyIdx`. -/
def pySet (l : List α) (i : Int) (a : α) : Except PyError (List α) :=
  match pyNorm l.length i with
  | some k => .ok (l.set k a)
  | none => .error .indexError

/-- A grid: the `map` attribute, a list of rows of cell characters. -/
abbrev Grid := List (List Char)

/-- 2D read `self.map[i][j]`. -/
def mapGet (m : Grid) (p : Int × Int) : Except PyError Char := do
  let row ← pyIdx m p.1
  pyIdx row p.2

/-- 2D write `new_map[i][j] = c`: reads row `i`, writes cell `j`, stores the
row back (Python mutates the row in place; functionally this is the same). -/
def mapSet (m : Grid) (p : Int × Int) (c : Char) : Except PyError Grid := do
  let row ← pyIdx m p.1
  let row2 ← pySet row p.2 c
  pySet m p.1 row2

/-- A `GameState` is determined by its `map` and `current_cost` attributes;
the remaining attributes set in `__init__` (`player`, `boxes`, `targets`,
`is_solved`, `height`, `width`) are pure functions of the map and are
modelled as the definitions below. -/
structure GameState where
  map : Grid
  current_cost : Nat
deriving DecidableEq, Repr

/-- Is this cell character the player (`'@'` or `'+'`)? -/
def isPlayerChar (c : Char) : Bool := c == '@' || c == '+'

/-- Column scan of one row for the player cell, carrying the current column
index. -/
def findPlayerCol (j : Nat) : List Char → Option Nat
  | [] => none
  | c :: rest => if isPlayerChar c then some j else findPlayerCol (j + 1) rest

/-- Row-by-row scan of `find_player`, carrying the current row index:
`for i in range(self.height): for j in range(self.width): if map[i][j] in
('@', '+'): return (i, j)`. -/
def findPlayerAux (i : Nat) : Grid → Option (Nat × Nat)
  | [] => none
  | row :: rest =>
    match findPlayerCol 0 row with
    | some j => some (i, j)
    | none => findPlayerAux (i + 1) rest

/-- `find_player`: position of the first `'@'` or `'+'` cell in row-major
scan order, or `None` when no player cell exists. -/
def find_player (m : Grid) : Option (Nat × Nat) := findPlayerAux 0 m

/-- Positions of all cells of one row satisfying `pred`, in column order. -/
def rowPositions (i : Nat) (pred : Char → Bool) (row : List Char) :
    List (Nat × Nat) :=
  (row.enum.filterMap fun jc => if pred jc.2 then some (i, jc.1) else none)

/-- Row-major scan collecting all positions whose cell satisfies `pred`. -/
def scanPositions (i : Nat) (pred : Char → Bool) : Grid → List (Nat × Nat)
  | [] => []
  | row :: rest => rowPositions i pred row ++ scanPositions (i + 1) pred rest

/-- `find_boxes`: positions of all `'$'` or `'*'` cells in scan order. -/
def find_boxes (m : Grid) : List (Nat × Nat) :=
  scanPositions 0 (fun c => c == '$' || c == '*') m

/-- `find_targets`: positions of all `'.'` or `'*'` cells in scan order.
Note a target covered by the player (`'+'`) is not counted. -/
def find_targets (m : Grid) : List (Nat × Nat) :=
  scanPositions 0 (fun c => c == '.' || c == '*') m

/-- `check_solved`: `all(box in self.targets for box in self.boxes)`. -/
def check_solved (s : GameState) : Bool :=
  (find_boxes s.map).all (fun b => (find_targets s.map).contains b)

/-- `is_wall`: `self.map[i][j] == '#'` (may raise IndexError). -/
def is_wall (s : GameState) (p : Int × Int) : Except PyError Bool :=
  (mapGet s.map p).map (fun c => c == '#')

/-- `is_box`: `self.map[i][j] == '$' or self.map[i][j] == '*'`. -/
def is_box (s : GameState) (p : Int × Int) : Except PyError Bool :=
  (mapGet s.map p).map (fun c => c == '$' || c == '*')

/-- `is_target`: `self.map[i][j] == '.' or self.map[i][j] == '*'`. -/
def is_target (s : GameState) (p : Int × Int) : Except PyError Bool :=
  (mapGet s.map p).map (fun c => c == '.' || c == '*')

/-- `is_empty`: `self.map[i][j] == ' '`. -/
def is_empty (s : GameState) (p : Int × Int) : Except PyError Bool :=
  (mapGet s.map p).map (fun c => c == ' ')

/-- `manhattan_distance`: minimum L1 distance from a box to the targets,
starting from `math.inf` (`⊤`), so `⊤` when the target list is empty. -/
def manhattan_distance (box : Nat × Nat) (targets : List (Nat × Nat)) :
    WithTop Nat :=
  targets.foldl
    (fun acc t =>
      min acc
        (((Int.natAbs ((box.1 : Int) - t.1) +
           Int.natAbs ((box.2 : Int) - t.2)) : Nat) : WithTop Nat))
    ⊤

/-- `get_heuristic`: sum over all boxes of the distance to the nearest
target (`⊤` absorbs, matching `math.inf` arithmetic on floats). -/
def get_heuristic (s : GameState) : WithTop Nat :=
  (find_boxes s.map).foldl
    (fun acc b => acc + manhattan_distance b (find_targets s.map)) 0

/-- `get_current_cost`. -/
def get_current_cost (s : GameState) : Nat := s.current_cost

/-- `get_total_cost`: `get_current_cost() + get_heuristic()`. -/
def get_total_cost (s : GameState) : WithTop Nat :=
  (s.current_cost : WithTop Nat) + get_heuristic s

/-- The target cell one step from `p` in direction `d` (the source's
`new_position`); only called after `d` has been validated. -/
def dirOffset (p : Int × Int) (d : Char) : Int × Int :=
  if d = 'U' then (p.1 - 1, p.2)
  else if d = 'D' then (p.1 + 1, p.2)
  else if d = 'L' then (p.1, p.2 - 1)
  else (p.1, p.2 + 1)

/-- The box destination `(new_position[0] + (new_position[0] - i),
new_position[1] + (new_position[1] - j))`. -/
def pushDest (p np : Int × Int) : Int × Int :=
  (np.1 + (np.1 - p.1), np.2 + (np.2 - p.2))

/-- The body of `move` up to — but not into — its `return` statements:
`.ok none` models `return self` (the very same object, no constructor
call), while `.ok (some (GameState.mk m c))` models control reaching
`return GameState(new_map, self.current_cost + 1)` with constructor
arguments `m = new_map` and `c = self.current_cost + 1`.  The constructor
call itself is modelled separately by `GameState.init` below (it always
raises AttributeError because of the assignment-order slip in `__init__`);
`move` composes the two.  Errors raised before any return: unpacking
`self.player` when it is `None` raises TypeError; an invalid direction
raises ValueError; indexing past the end of the map raises IndexError.
The two map-building blocks mirror the source's assignment sequence,
including the short-circuit
`not is_wall(new_box_position) and not is_box(new_box_position)`. -/
def moveTag (s : GameState) (d : Char) : Except PyError (Option GameState) :=
  match find_player s.map with
  | none => .error .typeError
  | some (pi, pj) =>
    let p : Int × Int := ((pi : Int), (pj : Int))
    if d = 'U' ∨ d = 'D' ∨ d = 'L' ∨ d = 'R' then do
      let np := dirOffset p d
      let w ← is_wall s np
      if ¬ w then
        let b ← is_box s np
        if b then
          let nbp := pushDest p np
          let ok2 ← (do
            let w2 ← is_wall s nbp
            if w2 then pure false
            else do
              let b2 ← is_box s nbp
              pure (¬ b2))
          if ok2 then do
            let cP ← mapGet s.map p
            let cN ← mapGet s.map np
            let cB ← mapGet s.map nbp
            let m1 ← mapSet s.map p ' '
            let m2 ← if cP = '+' then mapSet m1 p '.' else pure m1
            let m3 ← mapSet m2 np '@'
            let m4 ← if cN = '.' then mapSet m3 np '+' else pure m3
            let m5 ← mapSet m4 nbp '$'
            let m6 ← if cB = '.' then mapSet m5 nbp '*' else pure m5
            pure (some (GameState.mk m6 (s.current_cost + 1)))
          else
            pure none
        else do
          let cP ← mapGet s.map p
          let cN ← mapGet s.map np
          let m1 ← mapSet s.map p ' '
          let m2 ← if cP = '+' then mapSet m1 p '.' else pure m1
          let m3 ← mapSet m2 np '@'
          let m4 ← if cN = '.' then mapSet m3 np '+' else pure m3
          pure (some (GameState.mk m4 (s.current_cost + 1)))
      else
        pure none
    else .error .valueError

/-!
## The `__init__` attribute-assignment order

`GameState.__init__` assigns, in order: `self.map`, `self.player` (via
`find_player`), `self.boxes`, `self.targets`, `self.is_solved`,
`self.current_cost`, `self.height`, `self.width`.  The three `find_*`
methods iterate `for i in range(self.height)` / `for j in range(self.width)`
— attributes that are assigned only at the end of `__init__`.  The record
below tracks which attributes have been assigned so far; reading an
unassigned one raises AttributeError, exactly as CPython does.
-/

/-- The instance attribute dictionary during `__init__`: `none` means the
attribute has not been assigned yet. -/
structure InitAttrs where
  amap : Option Grid := none
  aplayer : Option (Option (Nat × Nat)) := none
  aboxes : Option (List (Nat × Nat)) := none
  atargets : Option (List (Nat × Nat)) := none
  asolved : Option Bool := none
  acost : Option Nat := none
  aheight : Option Nat := none
  awidth : Option Nat := none

/-- Attribute read: raises AttributeError when the attribute is unassigned. -/
def attrGet (o : Option α) : Except PyError α :=
  match o with
  | some a => .ok a
  | none => .error .attributeError

/-- The window of the grid visited by the `range(height)`/`range(width)`
loops of the `find_*` methods. -/
def gridWindow (m : Grid) (h w : Nat) : Grid :=
  (m.take h).map (fun row => row.take w)

/-- `find_player` as executed from `__init__`: evaluating
`range(self.height)` reads `self.height` (then the loop reads `self.width`
and `self.map`); the scan itself is the pure `find_player` over the window
the loops visit.  During `__init__` the first attribute read already raises,
so the scan is unreachable there. -/
def find_player_method (a : InitAttrs) : Except PyError (Option (Nat × Nat)) := do
  let h ← attrGet a.aheight
  let w ← attrGet a.awidth
  let m ← attrGet a.amap
  pure (find_player (gridWindow m h w))

/-- `find_boxes` as executed from `__init__`; same attribute reads. -/
def find_boxes_method (a : InitAttrs) : Except PyError (List (Nat × Nat)) := do
  let h ← attrGet a.aheight
  let w ← attrGet a.awidth
  let m ← attrGet a.amap
  pure (find_boxes (gridWindow m h w))

/-- `find_targets` as executed from `__init__`; same attribute reads. -/
def find_targets_method (a : InitAttrs) : Except PyError (List (Nat × Nat)) := do
  let h ← attrGet a.aheight
  let w ← attrGet a.awidth
  let m ← attrGet a.amap
  pure (find_targets (gridWindow m h w))

/-- `check_solved` as executed from `__init__`: reads `self.targets` and
`self.boxes` (assigned just before, so these reads succeed there). -/
def check_solved_method (a : InitAttrs) : Except PyError Bool := do
  let boxes ← attrGet a.aboxes
  let targets ← attrGet a.atargets
  pure (boxes.all (fun b => targets.contains b))

/-- `GameState.__init__(map, current_cost=0)`, statement by statement.  On
success the object is determined by `map` and `current_cost` (the remaining
attributes are the derived functions above), so the result is the plain
`GameState` value. -/
def GameState.init (m : Grid) (cost : Nat) : Except PyError GameState := do
  let a0 : InitAttrs := {}
  let a1 := { a0 with amap := some m }
  let pl ← find_player_method a1
  let a2 := { a1 with aplayer := some pl }
  let bx ← find_boxes_method a2
  let a3 := { a2 with aboxes := some bx }
  let tg ← find_targets_method a3
  let a4 := { a3 with atargets := some tg }
  let sv ← check_solved_method a4
  let a5 := { a4 with asolved := some sv, acost := some cost }
  let a6 := { a5 with aheight := some m.length }
  let row0 ← pyIdx m 0
  let _a7 := { a6 with awidth := some row0.length }
  pure (GameState.mk m cost)

/-- The full `move` method: the map-building control flow (`moveTag`)
followed by the constructor call of its `return GameState(...)` statements,
modelled by `GameState.init`.  A blocked move returns `self` without
constructing anything; a valid move computes `new_map` and then attempts
`GameState(new_map, self.current_cost + 1)`, which raises AttributeError
because of the assignment-order slip in `__init__`, so `move` never returns
a new state. -/
def move (s : GameState) (d : Char) : Except PyError GameState :=
  match moveTag s d with
  | .error e => .error e
  | .ok none => .ok s
  | .ok (some s2) => GameState.init s2.map s2.current_cost

/-!
## Python object identity

`GameState` defines neither `__eq__` nor `__hash__` nor `__lt__`.  CPython
therefore compares instances by reference identity (`object.__eq__`), and
hashes them by identity.  A reference is modelled as the state value paired
with its allocation identifier. -/

/-- A reference to a `GameState` object: the value plus its `id()`. -/
structure PyRef where
  state : GameState
  refId : Nat
deriving DecidableEq, Repr

/-- Default equality of two `GameState` objects: reference identity, since
the class defines no `__eq__`. -/
def pyDefaultEq (a b : PyRef) : Bool := a.refId == b.refId

/-!
## The search loops of `Solver`

All five strategy methods share one skeleton: pop `(current_state, path)`
from the frontier, return `path` if solved, otherwise (if not visited) mark
visited and push the four `move` successors not yet visited.  Because
`GameState` has no `__eq__`/`__hash__`, the `visited` set stores and tests
object identities; the machines below thread an allocation counter and give
each state constructed by `move` a fresh identifier, while a blocked `move`
returns the popped object itself (same identifier).

One deliberate idealization: the machines use `moveTag`, i.e. they treat
the `GameState(new_map, self.current_cost + 1)` construction inside `move`
as succeeding with the computed arguments.  In the unpatched program that
constructor raises AttributeError (the `__init__` assignment-order slip:
see `GameState.init` and `move`), so every run would die at the first
unblocked move; the loop behaviors proved below are those of the program
with that one slip patched, which is how the spec's loop claims are to be
read at all.
-/

/-- A frontier entry of `bfs`/`dfs`: `(state, path)` plus the object id. -/
structure SEntry where
  state : GameState
  refId : Nat
  path : List Char
deriving DecidableEq, Repr

/-- Run state of one `solve()` call: frontier, visited ids, next id. -/
structure SearchM where
  frontier : List SEntry
  visited : List Nat
  ctr : Nat
deriving DecidableEq, Repr

/-- The inner `for direction in ['U','D','L','R']` loop: each successor is
pushed unless its identity is already in `visited`; a blocked move yields
the current object (same id), a successful move allocates a fresh id.
Returns the entries pushed, in push order, with the final counter. -/
def expandDirs (cur : SEntry) (visited : List Nat) :
    List Char → Nat → Except PyError (List SEntry × Nat)
  | [], ctr => .ok ([], ctr)
  | d :: ds, ctr => do
    let r ← moveTag cur.state d
    match r with
    | none =>
      let rest ← expandDirs cur visited ds ctr
      if cur.refId ∈ visited then pure rest
      else pure (⟨cur.state, cur.refId, cur.path ++ [d]⟩ :: rest.1, rest.2)
    | some s2 =>
      let rest ← expandDirs cur visited ds (ctr + 1)
      if ctr ∈ visited then pure rest
      else pure (⟨s2, ctr, cur.path ++ [d]⟩ :: rest.1, rest.2)

/-- Result of one iteration of the `while not frontier.empty()` loop. -/
inductive StepRes where
  | found (g : GameState) (path : List Char)
  | empty
  | next (M : SearchM)
deriving DecidableEq, Repr

instance : Inhabited SEntry := ⟨⟨⟨[], 0⟩, 0, []⟩⟩

/-- One loop iteration, popping the frontier entry at position
`k % frontier.length`: `k = 0` every time is exactly the FIFO `Queue` of
`bfs`; popping the last position is the `LifoQueue` of `dfs`; a priority
queue pops some position as well, so properties proved for every `k`
sequence cover every strategy's frontier discipline.  Pushes append in
direction order, matching `frontier.put`. -/
def stepAt (k : Nat) (M : SearchM) : Except PyError StepRes :=
  match M.frontier with
  | [] => .ok .empty
  | _ :: _ =>
    let idx := k % M.frontier.length
    let e := M.frontier.getD idx default
    let rest := M.frontier.eraseIdx idx
    if check_solved e.state then .ok (.found e.state e.path)
    else if e.refId ∈ M.visited then .ok (.next ⟨rest, M.visited, M.ctr⟩)
    else do
      let v2 := e.refId :: M.visited
      let pc ← expandDirs e v2 ['U', 'D', 'L', 'R'] M.ctr
      pure (.next ⟨rest ++ pc.1, v2, pc.2⟩)

/-- Outcome of running the loop a bounded number of iterations. -/
inductive RunRes where
  | running (M : SearchM)
  | found (g : GameState) (path : List Char)
  | notFound
  | errored (e : PyError)
deriving DecidableEq, Repr

/-- Run the loop once per element of `ks`, popping position `k` each time. -/
def runSteps (M : SearchM) : List Nat → RunRes
  | [] => .running M
  | k :: ks =>
    match stepAt k M with
    | .ok (.next M2) => runSteps M2 ks
    | .ok .empty => .notFound
    | .ok (.found g p) => .found g p
    | .error e => .errored e

/-- `frontier.put((initial_state, []))`: the caller-made initial state is
object 0. -/
def initMachine (s0 : GameState) : SearchM := ⟨[⟨s0, 0, []⟩], [], 1⟩

/-- `Solver.bfs` for `n` iterations: FIFO pops are position 0. -/
def bfsRun (s0 : GameState) (n : Nat) : RunRes :=
  runSteps (initMachine s0) (List.replicate n 0)

/-!
### The `PriorityQueue` strategies (`astar`, `ucs`, `greedy`)

`queue.PriorityQueue` is a binary heap (CPython `heapq`) of tuples
`(priority, state, path)`.  Tuple comparison compares priorities first; on a
tie it moves to the `GameState` components, where `==` is identity and `<`
on a class without `__lt__` raises TypeError; only for the identical object
does it fall through to comparing the paths (lists of one-character
strings).  Priorities live in `WithTop Nat` since `get_heuristic` can be
`math.inf`.
-/

/-- A heap entry `(priority, state, path)` plus the state's object id. -/
structure PEntry where
  pri : WithTop Nat
  state : GameState
  refId : Nat
  path : List Char
deriving DecidableEq, Repr

instance : Inhabited PEntry := ⟨⟨0, ⟨[], 0⟩, 0, []⟩⟩

/-- Python `<` on two lists of single-letter direction strings. -/
def charListLt : List Char → List Char → Bool
  | [], [] => false
  | [], _ :: _ => true
  | _ :: _, [] => false
  | a :: as, b :: bs => if a < b then true else if b < a then false else charListLt as bs

/-- Python `<` on two heap tuples, as described above. -/
def pEntryLt (a b : PEntry) : Except PyError Bool :=
  if a.pri ≠ b.pri then .ok (decide (a.pri < b.pri))
  else if a.refId ≠ b.refId then .error .typeError
  else .ok (charListLt a.path b.path)

/-- `heapq._siftdown(heap, 0, pos)` walking `item` toward the root; the
fuel is at least `pos + 1`, which bounds the iterations. -/
def siftdownFuel : Nat → List PEntry → PEntry → Nat → Except PyError (List PEntry)
  | 0, heap, item, pos => .ok (heap.set pos item)
  | fuel + 1, heap, item, pos =>
    if pos = 0 then .ok (heap.set pos item)
    else do
      let parentpos := (pos - 1) / 2
      let parent := heap.getD parentpos default
      let lt ← pEntryLt item parent
      if lt then siftdownFuel fuel (heap.set pos parent) item parentpos
      else .ok (heap.set pos item)

/-- `heapq._siftup(heap, 0)` with `newitem` the element bubbled down; the
fuel is at least `heap.length + 1`. -/
def siftupFuel : Nat → List PEntry → PEntry → Nat → Except PyError (List PEntry)
  | 0, heap, _, _ => .ok heap
  | fuel + 1, heap, newitem, pos =>
    let childpos := 2 * pos + 1
    if childpos < heap.length then do
      let rightpos := childpos + 1
      let childpos2 ←
        if rightpos < heap.length then do
          let lt ← pEntryLt (heap.getD childpos default) (heap.getD rightpos default)
          pure (if lt then childpos else rightpos)
        else pure childpos
      let heap2 := heap.set pos (heap.getD childpos2 default)
      siftupFuel fuel heap2 newitem childpos2
    else
      siftdownFuel (pos + 1) (heap.set pos newitem) newitem pos

/-- `heapq.heappush`. -/
def heappush (heap : List PEntry) (item : PEntry) : Except PyError (List PEntry) :=
  siftdownFuel (heap.length + 1) (heap ++ [item]) item heap.length

/-- `heapq.heappop`. -/
def heappop (heap : List PEntry) : Except PyError (PEntry × List PEntry) :=
  match heap with
  | [] => .error .indexError
  | [e] => .ok (e, [])
  | _ :: _ :: _ =>
    let lastelt := heap.getLast?.getD default
    let heap1 := heap.dropLast
    let returnitem := heap1.getD 0 default
    do
      let heap2 ← siftupFuel (heap1.length + 1) (heap1.set 0 lastelt) lastelt 0
      pure (returnitem, heap2)

/-- Run state of a priority-queue strategy. -/
structure PQM where
  heap : List PEntry
  visited : List Nat
  ctr : Nat
deriving DecidableEq, Repr

/-- The inner direction loop of `astar`/`ucs`/`greedy`:
`frontier.put((prif(new_state), new_state, new_path))` for each unvisited
successor; `heappush` may raise TypeError while comparing entries. -/
def pqExpand (prif : GameState → WithTop Nat) (cur : PEntry) (visited : List Nat) :
    List Char → List PEntry → Nat → Except PyError (List PEntry × Nat)
  | [], heap, ctr => .ok (heap, ctr)
  | d :: ds, heap, ctr => do
    let r ← moveTag cur.state d
    match r with
    | none =>
      if cur.refId ∈ visited then pqExpand prif cur visited ds heap ctr
      else do
        let h2 ← heappush heap ⟨prif cur.state, cur.state, cur.refId, cur.path ++ [d]⟩
        pqExpand prif cur visited ds h2 ctr
    | some s2 =>
      if ctr ∈ visited then pqExpand prif cur visited ds heap (ctr + 1)
      else do
        let h2 ← heappush heap ⟨prif s2, s2, ctr, cur.path ++ [d]⟩
        pqExpand prif cur visited ds h2 (ctr + 1)

/-- Outcome of a priority-queue strategy run. -/
inductive PQRes where
  | running (M : PQM)
  | found (g : GameState) (path : List Char)
  | notFound
  | errored (e : PyError)
deriving DecidableEq, Repr

/-- The `while not frontier.empty()` loop of a priority-queue strategy. -/
def pqRun (prif : GameState → WithTop Nat) : PQM → Nat → PQRes
  | M, 0 => .running M
  | M, fuel + 1 =>
    match M.heap with
    | [] => .notFound
    | _ :: _ =>
      match heappop M.heap with
      | .error e => .errored e
      | .ok (e, h2) =>
        if check_solved e.state then .found e.state e.path
        else if e.refId ∈ M.visited then pqRun prif ⟨h2, M.visited, M.ctr⟩ fuel
        else
          match pqExpand prif e (e.refId :: M.visited) ['U', 'D', 'L', 'R'] h2 M.ctr with
          | .error er => .errored er
          | .ok (h3, ctr2) => pqRun prif ⟨h3, e.refId :: M.visited, ctr2⟩ fuel

/-- Initial put plus the loop, for a given priority function. -/
def pqStrategyRun (prif : GameState → WithTop Nat) (s0 : GameState) (fuel : Nat) : PQRes :=
  match heappush [] ⟨prif s0, s0, 0, []⟩ with
  | .error e => .errored e
  | .ok h => pqRun prif ⟨h, [], 1⟩ fuel

/-- `Solver.ucs`: priority `get_current_cost()`. -/
def ucsRun (s0 : GameState) (fuel : Nat) : PQRes :=
  pqStrategyRun (fun g => ((get_current_cost g : Nat) : WithTop Nat)) s0 fuel

/-- `Solver.astar`: priority `get_total_cost()`. -/
def astarRun (s0 : GameState) (fuel : Nat) : PQRes :=
  pqStrategyRun get_total_cost s0 fuel

/-- `Solver.greedy`: priority `get_heuristic()`. -/
def greedyRun (s0 : GameState) (fuel : Nat) : PQRes :=
  pqStrategyRun get_heuristic s0 fuel

/-!
## Concrete example grids used by the claim theorems
-/

/-- `#### / #@ # / #$.# / ####`: the player can roam three cells, the box
is wedged against the bottom wall and can never reach the target. -/
def mapA : Grid :=
  [['#','#','#','#'], ['#','@',' ','#'], ['#','$','.','#'], ['#','#','#','#']]

/-- `mapA` after moving right. -/
def mapB : Grid :=
  [['#','#','#','#'], ['#',' ','@','#'], ['#','$','.','#'], ['#','#','#','#']]

/-- `mapB` after moving down (the player stands on the target). -/
def mapC : Grid :=
  [['#','#','#','#'], ['#',' ',' ','#'], ['#','$','+','#'], ['#','#','#','#']]

/-- `##### / #@* # / #####`: a box on a target with free space to its
right. -/
def mapStar : Grid :=
  [['#','#','#','#','#'], ['#','@','*',' ','#'], ['#','#','#','#','#']]

/-- The result of pushing that box off its target: the vacated cell holds a
plain `'@'`, the target marking is gone. -/
def mapStarPushed : Grid :=
  [['#','#','#','#','#'], ['#',' ','@','$','#'], ['#','#','#','#','#']]

/-- The three board layouts reachable on `mapA`: the box never moves and
the player shuttles between its three free cells. -/
def bfsLiveMaps : List Grid := [mapA, mapB, mapC]

/-- Invariant of the `bfs` loop on `mapA`: the frontier never empties —
every frontier state is one of the three live (unsolved) layouts whose
object has not been visited, identities are pairwise distinct and below the
allocation counter, as are the visited identities.  Because `GameState` has
no `__eq__`, the visited test compares identities, so every expansion
allocates and pushes at least one fresh successor and the loop can never
exhaust the frontier. -/
def bfsInv (M : SearchM) : Prop :=
  M.frontier ≠ [] ∧
  (∀ e ∈ M.frontier, e.state.map ∈ bfsLiveMaps) ∧
  (∀ e ∈ M.frontier, e.refId ∉ M.visited) ∧
  (∀ e ∈ M.frontier, e.refId < M.ctr) ∧
  (M.frontier.map (fun e => e.refId)).Nodup ∧
  (∀ v ∈ M.visited, v < M.ctr)

/-!
# Theorems

First, inversion and stability lemmas for the Python indexing model and the
`find_player` scan; then the claim theorems.
-/

/-- Characterization of Python index resolution. -/
theorem pyNorm_some_iff {len : Nat} {i : Int} {k : Nat} :
    pyNorm len i = some k ↔
      (k < len ∧ ((0 ≤ i ∧ i = (k : Int)) ∨ (i < 0 ∧ i + len = (k : Int)))) := by
  unfold pyNorm
  split
  next h =>
    constructor
    · intro hk
      injection hk with hk
      omega
    · intro hk
      rcases hk with ⟨h1, h2 | h2⟩ <;> [skip; omega]
      congr 1
      omega
  next h =>
    split
    next h2 =>
      constructor
      · intro hk
        injection hk with hk
        omega
      · intro hk
        congr 1
        omega
    next h2 =>
      constructor
      · intro hk
        exact absurd hk (by simp)
      · intro hk
        omega

theorem pyNorm_some_lt {len : Nat} {i : Int} {k : Nat}
    (h : pyNorm len i = some k) : k < len :=
  (pyNorm_some_iff.1 h).1

theorem pyNorm_natCast {len k : Nat} (h : k < len) :
    pyNorm len (k : Int) = some k :=
  pyNorm_some_iff.2 ⟨h, Or.inl ⟨by omega, rfl⟩⟩

theorem pyNorm_natCast_inv {len k j : Nat}
    (h : pyNorm len (k : Int) = some j) : j = k := by
  rcases (pyNorm_some_iff.1 h).2 with ⟨_, h2⟩ | ⟨h2, _⟩ <;> omega

theorem pyNorm_len_self {len : Nat} : pyNorm len (len : Int) = none := by
  unfold pyNorm
  rw [if_neg (by omega), if_neg (by omega)]

theorem pyNorm_neg_one {len : Nat} (h : 0 < len) :
    pyNorm len (-1) = some (len - 1) :=
  pyNorm_some_iff.2 ⟨by omega, Or.inr ⟨by omega, by omega⟩⟩

theorem pyNorm_last {len : Nat} (h : 0 < len) :
    pyNorm len ((len : Int) - 1) = some (len - 1) :=
  pyNorm_some_iff.2 ⟨by omega, Or.inl ⟨by omega, by omega⟩⟩

/-- `>>=` on `Except` applied to a success, by unfolding. -/
theorem except_bind_ok {α β : Type} (a : α) (f : α → Except PyError β) :
    (Except.ok a >>= f) = f a := rfl

/-- `>>=` on `Except` applied to an error, by unfolding. -/
theorem except_bind_err {α β : Type} (e : PyError) (f : α → Except PyError β) :
    ((Except.error e : Except PyError α) >>= f) = Except.error e := rfl

/-- `pyIdx` succeeds exactly on a resolvable index and returns that cell. -/
theorem pyIdx_ok_iff {α : Type} [Inhabited α] {l : List α} {i : Int} {a : α} :
    pyIdx l i = .ok a ↔ ∃ k, pyNorm l.length i = some k ∧ l[k]? = some a := by
  unfold pyIdx
  cases h : pyNorm l.length i with
  | none => simp [h]
  | some k =>
    have hk : k < l.length := pyNorm_some_lt h
    simp only [h]
    constructor
    · intro ha
      injection ha with ha
      refine ⟨k, rfl, ?_⟩
      rw [List.getD_eq_getElem?_getD, List.getElem?_eq_getElem hk] at ha
      rw [List.getElem?_eq_getElem hk]
      simpa using ha
    · rintro ⟨k2, hk2, hget⟩
      injection hk2 with hk2
      subst hk2
      simp [List.getD_eq_getElem?_getD, hget]

theorem pyIdx_ok_of {α : Type} [Inhabited α] {l : List α} {i : Int} {k : Nat} {a : α}
    (h1 : pyNorm l.length i = some k) (h2 : l[k]? = some a) :
    pyIdx l i = .ok a :=
  pyIdx_ok_iff.2 ⟨k, h1, h2⟩

theorem pyIdx_err_of {α : Type} [Inhabited α] {l : List α} {i : Int}
    (h : pyNorm l.length i = none) : pyIdx l i = .error .indexError := by
  unfold pyIdx
  rw [h]

theorem pySet_ok_of {α : Type} {l : List α} {i : Int} {k : Nat} {a : α}
    (h : pyNorm l.length i = some k) : pySet l i a = .ok (l.set k a) := by
  unfold pySet
  rw [h]

/-- 2D read in terms of resolved coordinates. -/
theorem mapGet_ok_of {m : Grid} {p : Int × Int} {kr kc : Nat} {row : List Char} {a : Char}
    (h1 : pyNorm m.length p.1 = some kr) (h2 : m[kr]? = some row)
    (h3 : pyNorm row.length p.2 = some kc) (h4 : row[kc]? = some a) :
    mapGet m p = .ok a := by
  unfold mapGet
  rw [pyIdx_ok_of h1 h2]
  exact pyIdx_ok_of h3 h4

theorem mapGet_ok_iff {m : Grid} {p : Int × Int} {a : Char} :
    mapGet m p = .ok a ↔
      ∃ kr row kc, pyNorm m.length p.1 = some kr ∧ m[kr]? = some row ∧
        pyNorm row.length p.2 = some kc ∧ row[kc]? = some a := by
  constructor
  · intro h
    unfold mapGet at h
    cases hr : pyIdx m p.1 with
    | error e => rw [hr, except_bind_err] at h; exact absurd h (by simp)
    | ok row =>
      rw [hr, except_bind_ok] at h
      obtain ⟨kr, hkr, hrow⟩ := pyIdx_ok_iff.1 hr
      obtain ⟨kc, hkc, hcell⟩ := pyIdx_ok_iff.1 h
      exact ⟨kr, row, kc, hkr, hrow, hkc, hcell⟩
  · rintro ⟨kr, row, kc, h1, h2, h3, h4⟩
    exact mapGet_ok_of h1 h2 h3 h4

/-- 2D write in terms of resolved coordinates. -/
theorem mapSet_ok_of {m : Grid} {p : Int × Int} {kr kc : Nat} {row : List Char} {c : Char}
    (h1 : pyNorm m.length p.1 = some kr) (h2 : m[kr]? = some row)
    (h3 : pyNorm row.length p.2 = some kc) :
    mapSet m p c = .ok (m.set kr (row.set kc c)) := by
  unfold mapSet
  rw [pyIdx_ok_of h1 h2]
  show (pySet row p.2 c).bind _ = _
  rw [pySet_ok_of h3]
  show pySet m p.1 (row.set kc c) = _
  exact pySet_ok_of h1

/-- The scan of one row: a found column is a genuine player cell. -/
theorem findPlayerCol_some (row : List Char) :
    ∀ j pj, findPlayerCol j row = some pj →
      j ≤ pj ∧ ∃ c, row[pj - j]? = some c ∧ isPlayerChar c = true := by
  induction row with
  | nil => intro j pj h; exact absurd h (by simp [findPlayerCol])
  | cons c rest ih =>
    intro j pj h
    unfold findPlayerCol at h
    split at h
    next hc =>
      injection h with h
      subst h
      exact ⟨le_refl _, c, by simp, hc⟩
    next hc =>
      obtain ⟨hle, c2, hget, hpc⟩ := ih (j + 1) pj h
      refine ⟨by omega, c2, ?_, hpc⟩
      have : pj - j = (pj - (j + 1)) + 1 := by omega
      rw [this, List.getElem?_cons_succ]
      exact hget

/-- The row scan: a found position is a genuine player cell of the grid. -/
theorem findPlayerAux_some (m : Grid) :
    ∀ i pi pj, findPlayerAux i m = some (pi, pj) →
      i ≤ pi ∧ ∃ row c, m[pi - i]? = some row ∧ row[pj]? = some c ∧
        isPlayerChar c = true := by
  induction m with
  | nil => intro i pi pj h; exact absurd h (by simp [findPlayerAux])
  | cons row rest ih =>
    intro i pi pj h
    unfold findPlayerAux at h
    split at h
    next j hj =>
      injection h with h
      have hi : i = pi := congrArg Prod.fst h
      have hjj : j = pj := congrArg Prod.snd h
      obtain ⟨_, c, hget, hpc⟩ := findPlayerCol_some row 0 j hj
      refine ⟨le_of_eq hi, row, c, ?_, ?_, hpc⟩
      · rw [← hi]
        simp
      · rw [← hjj]
        simpa using hget
    next hj =>
      obtain ⟨hle, row2, c, hget, hcell, hpc⟩ := ih (i + 1) pi pj h
      refine ⟨by omega, row2, c, ?_, hcell, hpc⟩
      have : pi - i = (pi - (i + 1)) + 1 := by omega
      rw [this, List.getElem?_cons_succ]
      exact hget

/-- `find_player` returns an actual player cell with in-range coordinates. -/
theorem find_player_cell {m : Grid} {pi pj : Nat}
    (h : find_player m = some (pi, pj)) :
    ∃ row c, m[pi]? = some row ∧ row[pj]? = some c ∧
      isPlayerChar c = true := by
  obtain ⟨_, row, c, hget, hcell, hpc⟩ := findPlayerAux_some m 0 pi pj h
  exact ⟨row, c, by simpa using hget, hcell, hpc⟩

/-- `Except.map` applied to a success, by unfolding. -/
theorem except_map_ok {α β : Type} (a : α) (f : α → β) :
    (Except.ok a : Except PyError α).map f = .ok (f a) := rfl

/-- `Except.map` applied to an error, by unfolding. -/
theorem except_map_err {α β : Type} (e : PyError) (f : α → β) :
    (Except.error e : Except PyError α).map f = .error e := rfl

/-- C10: `move` does no bounds checking.  With the player on row 0, the
`'U'` target index is `-1`, which the cell predicates resolve to the last
row (Python wrap-around); a column of 0 and `'L'` likewise resolve to the
last column of the row.  Moving `'D'` from the last row (or `'R'` from the
last column) indexes one past the end and raises IndexError. -/
theorem move_wraps_at_negative_and_raises_past_end
    (s : GameState) (pi pj : Nat) (row : List Char)
    (hp : find_player s.map = some (pi, pj))
    (hrow : s.map[pi]? = some row) :
    (pi = 0 →
      is_wall s (-1, (pj : Int)) =
        is_wall s ((s.map.length : Int) - 1, (pj : Int))) ∧
    (pj = 0 →
      is_wall s ((pi : Int), -1) =
        is_wall s ((pi : Int), (row.length : Int) - 1)) ∧
    (pi + 1 = s.map.length → moveTag s 'D' = .error .indexError) ∧
    (pj + 1 = row.length → moveTag s 'R' = .error .indexError) := by
  obtain ⟨row0, c, hrow0, hcell, _⟩ := find_player_cell hp
  rw [hrow] at hrow0
  injection hrow0 with hrow0
  subst hrow0
  have hpi : pi < s.map.length := (List.getElem?_eq_some_iff.1 hrow).1
  have hpj : pj < row.length := (List.getElem?_eq_some_iff.1 hcell).1
  refine ⟨?_, ?_, ?_, ?_⟩
  · intro h
    have hlen : 0 < s.map.length := by omega
    unfold is_wall mapGet
    have h1 : pyIdx s.map ((-1 : Int), (pj : Int)).1 =
        pyIdx s.map (((s.map.length : Int) - 1, (pj : Int)) : Int × Int).1 := by
      dsimp only
      unfold pyIdx
      rw [pyNorm_neg_one hlen, pyNorm_last hlen]
    rw [h1]
  · intro h
    have hlen : 0 < row.length := by omega
    unfold is_wall mapGet
    dsimp only
    rw [pyIdx_ok_of (pyNorm_natCast hpi) hrow, except_bind_ok, except_bind_ok]
    unfold pyIdx
    rw [pyNorm_neg_one hlen, pyNorm_last hlen]
  · intro h
    unfold moveTag
    rw [hp]
    have hnp : dirOffset ((pi : Int), (pj : Int)) 'D' = ((pi : Int) + 1, (pj : Int)) := by
      simp [dirOffset]
    have hw : is_wall s ((pi : Int) + 1, (pj : Int)) = .error .indexError := by
      unfold is_wall mapGet
      have h2 : pyNorm s.map.length ((pi : Int) + 1) = none := by
        rw [show ((pi : Int) + 1) = (s.map.length : Int) by omega, pyNorm_len_self]
      rw [pyIdx_err_of h2, except_bind_err, except_map_err]
    simp [hnp, hw, except_bind_err]
  · intro h
    unfold moveTag
    rw [hp]
    have hnp : dirOffset ((pi : Int), (pj : Int)) 'R' = ((pi : Int), (pj : Int) + 1) := by
      simp [dirOffset]
    have hw : is_wall s ((pi : Int), (pj : Int) + 1) = .error .indexError := by
      unfold is_wall mapGet
      rw [pyIdx_ok_of (pyNorm_natCast hpi) hrow, except_bind_ok]
      have h2 : pyNorm row.length ((pj : Int) + 1) = none := by
        rw [show ((pj : Int) + 1) = (row.length : Int) by omega, pyNorm_len_self]
      rw [pyIdx_err_of h2, except_map_err]
    simp [hnp, hw, except_bind_err]

/-- Witness for C10 on the wall-less 1×1 grid `@` (row 0 is also the last
row): both `'D'` and `'R'` raise IndexError. -/
theorem move_wraps_at_negative_and_raises_past_end_witness :
    moveTag (GameState.mk [['@']] 0) 'D' = .error .indexError ∧
    moveTag (GameState.mk [['@']] 0) 'R' = .error .indexError :=
  ⟨(move_wraps_at_negative_and_raises_past_end (GameState.mk [['@']] 0) 0 0
      ['@'] rfl rfl).2.2.1 rfl,
   (move_wraps_at_negative_and_raises_past_end (GameState.mk [['@']] 0) 0 0
      ['@'] rfl rfl).2.2.2 rfl⟩

/-- A successful `is_box` test exposes the cell character. -/
theorem is_box_ok_true {s : GameState} {p : Int × Int}
    (h : is_box s p = .ok true) :
    ∃ c, mapGet s.map p = .ok c ∧ (c = '$' ∨ c = '*') := by
  unfold is_box at h
  cases hg : mapGet s.map p with
  | error e => rw [hg, except_map_err] at h; exact absurd h (by simp)
  | ok c =>
    rw [hg, except_map_ok] at h
    injection h with h
    refine ⟨c, rfl, ?_⟩
    cases Bool.or_eq_true_iff.1 h with
    | inl h2 => exact Or.inl (by exact beq_iff_eq.1 h2)
    | inr h2 => exact Or.inr (by exact beq_iff_eq.1 h2)

/-- A box cell is not a wall. -/
theorem is_wall_false_of_is_box {s : GameState} {p : Int × Int}
    (h : is_box s p = .ok true) : is_wall s p = .ok false := by
  obtain ⟨c, hg, hc⟩ := is_box_ok_true h
  unfold is_wall
  rw [hg, except_map_ok]
  rcases hc with hc | hc <;> subst hc <;> rfl

/-- C6: a move into a wall, or a push whose box destination is a wall or
another box, is a no-op: the source returns `self` — the identical state,
with `current_cost` untouched. -/
theorem blocked_move_returns_same_state
    (s : GameState) (pi pj : Nat) (d : Char)
    (hp : find_player s.map = some (pi, pj))
    (hd : d = 'U' ∨ d = 'D' ∨ d = 'L' ∨ d = 'R')
    (hblock :
      is_wall s (dirOffset ((pi : Int), (pj : Int)) d) = .ok true ∨
      (is_box s (dirOffset ((pi : Int), (pj : Int)) d) = .ok true ∧
        (is_wall s (pushDest ((pi : Int), (pj : Int))
            (dirOffset ((pi : Int), (pj : Int)) d)) = .ok true ∨
         is_box s (pushDest ((pi : Int), (pj : Int))
            (dirOffset ((pi : Int), (pj : Int)) d)) = .ok true))) :
    moveTag s d = .ok none ∧ move s d = .ok s := by
  have hm : moveTag s d = .ok none := by
    unfold moveTag
    rw [hp]
    rcases hblock with hw | ⟨hb, hblock2⟩
    · simp [if_pos hd, hw, except_bind_ok, pure, Except.pure]
    · have hw : is_wall s (dirOffset ((pi : Int), (pj : Int)) d) = .ok false :=
        is_wall_false_of_is_box hb
      rcases hblock2 with h2 | h2
      · simp [if_pos hd, hw, hb, h2, except_bind_ok, pure, Except.pure]
      · have hw2 : is_wall s (pushDest ((pi : Int), (pj : Int))
            (dirOffset ((pi : Int), (pj : Int)) d)) = .ok false :=
          is_wall_false_of_is_box h2
        simp [if_pos hd, hw, hb, hw2, h2, except_bind_ok, pure, Except.pure]
  refine ⟨hm, ?_⟩
  unfold move
  rw [hm]

/-- Witness for C6: on `mapA` the player faces the wall above (`'U'`) and a
box wedged against the bottom wall (`'D'`); both moves return the input
state itself. -/
theorem blocked_move_returns_same_state_witness :
    (moveTag (GameState.mk mapA 0) 'U' = .ok none ∧
      move (GameState.mk mapA 0) 'U' = .ok (GameState.mk mapA 0)) ∧
    (moveTag (GameState.mk mapA 0) 'D' = .ok none ∧
      move (GameState.mk mapA 0) 'D' = .ok (GameState.mk mapA 0)) :=
  ⟨blocked_move_returns_same_state (GameState.mk mapA 0) 1 1 'U' rfl
      (Or.inl rfl) (Or.inl rfl),
   blocked_move_returns_same_state (GameState.mk mapA 0) 1 1 'D' rfl
      (Or.inr (Or.inl rfl))
      (Or.inr ⟨rfl, Or.inl rfl⟩)⟩

/-- Two Python indices one apart on the same axis (the move target and the
box destination beyond it) never resolve to the same position: with
`x < L` the pairs `(x-1, x-2)` and `(x+1, x+2)` resolve to distinct cells,
wrap-around included. -/
theorem resolve_step_ne {L x k1 k2 : Nat} (hx : x < L)
    (h : (pyNorm L ((x : Int) - 1) = some k1 ∧ pyNorm L ((x : Int) - 2) = some k2) ∨
         (pyNorm L ((x : Int) + 1) = some k1 ∧ pyNorm L ((x : Int) + 2) = some k2)) :
    k1 ≠ k2 := by
  rcases h with ⟨h1, h2⟩ | ⟨h1, h2⟩ <;>
    [have e1 := pyNorm_some_iff.1 h1; have e1 := pyNorm_some_iff.1 h1] <;>
    [have e2 := pyNorm_some_iff.1 h2; have e2 := pyNorm_some_iff.1 h2] <;>
    omega

/-- The player-relocation prefix common to both `move` branches: vacate the
player cell (reverting `'+'` to `'.'`), then write `'@'` into the target
cell.  Returns the three intermediate maps together with the facts needed
downstream: the length shape is unchanged, and the target cell now holds
`'@'`. -/
theorem build_enter {m : Grid} {pi pj : Nat} {row_p : List Char} {c_p : Char}
    {np : Int × Int} {krn kcn : Nat} {row_n : List Char}
    (hrowp : m[pi]? = some row_p) (hcellp : row_p[pj]? = some c_p)
    (hn1 : pyNorm m.length np.1 = some krn) (hn2 : m[krn]? = some row_n)
    (hn3 : pyNorm row_n.length np.2 = some kcn) :
    ∃ (M1 M2 M3 : Grid) (row3 : List Char),
      mapSet m ((pi : Int), (pj : Int)) ' ' = .ok M1 ∧
      (if c_p = '+' then mapSet M1 ((pi : Int), (pj : Int)) '.'
        else (pure M1 : Except PyError Grid)) = .ok M2 ∧
      mapSet M2 np '@' = .ok M3 ∧
      M3.length = m.length ∧
      (∀ k : Nat, (M3[k]?).map List.length = (m[k]?).map List.length) ∧
      M3[krn]? = some row3 ∧ row3.length = row_n.length ∧
      row3[kcn]? = some '@' := by
  have hpi : pi < m.length := (List.getElem?_eq_some_iff.1 hrowp).1
  have hpj : pj < row_p.length := (List.getElem?_eq_some_iff.1 hcellp).1
  have hkrn : krn < m.length := (List.getElem?_eq_some_iff.1 hn2).1
  have hkcn : kcn < row_n.length := pyNorm_some_lt hn3
  have hM1 : mapSet m ((pi : Int), (pj : Int)) ' ' = .ok (m.set pi (row_p.set pj ' ')) :=
    mapSet_ok_of (p := ((pi : Int), (pj : Int))) (pyNorm_natCast hpi) hrowp
      (pyNorm_natCast hpj)
  have hM2 : (if c_p = '+' then
        mapSet (m.set pi (row_p.set pj ' ')) ((pi : Int), (pj : Int)) '.'
      else (pure (m.set pi (row_p.set pj ' ')) : Except PyError Grid)) =
      .ok (m.set pi (row_p.set pj (if c_p = '+' then '.' else ' '))) := by
    by_cases hcp : c_p = '+'
    · rw [if_pos hcp, if_pos hcp]
      have hstep : mapSet (m.set pi (row_p.set pj ' ')) ((pi : Int), (pj : Int)) '.' =
          .ok ((m.set pi (row_p.set pj ' ')).set pi ((row_p.set pj ' ').set pj '.')) :=
        mapSet_ok_of (p := ((pi : Int), (pj : Int)))
          (by simpa using pyNorm_natCast hpi)
          (List.getElem?_set_self (by simpa using hpi))
          (by simpa using pyNorm_natCast hpj)
      rw [hstep, List.set_set, List.set_set]
    · rw [if_neg hcp, if_neg hcp]
      rfl
  have hrow2 : ∃ row2,
      (m.set pi (row_p.set pj (if c_p = '+' then '.' else ' ')))[krn]? = some row2 ∧
      row2.length = row_n.length := by
    by_cases hk : pi = krn
    · subst hk
      refine ⟨_, List.getElem?_set_self hpi, ?_⟩
      have hnp2 : row_n = row_p := by
        rw [hrowp] at hn2
        injection hn2 with h2
        exact h2.symm
      simp [hnp2]
    · exact ⟨row_n, by rw [List.getElem?_set_ne hk]; exact hn2, rfl⟩
  obtain ⟨row2, hrow2get, hrow2len⟩ := hrow2
  have hM3 : mapSet (m.set pi (row_p.set pj (if c_p = '+' then '.' else ' '))) np '@' =
      .ok ((m.set pi (row_p.set pj (if c_p = '+' then '.' else ' '))).set krn
        (row2.set kcn '@')) :=
    mapSet_ok_of (p := np) (by simpa using hn1) hrow2get
      (by rw [hrow2len]; exact hn3)
  refine ⟨_, _, _, row2.set kcn '@', hM1, hM2, hM3, by simp, ?_, ?_, ?_, ?_⟩
  · intro k
    by_cases h1 : krn = k
    · subst h1
      rw [List.getElem?_set_self (by simpa using hkrn), hn2]
      simp [hrow2len]
    · rw [List.getElem?_set_ne h1]
      by_cases h2 : pi = k
      · subst h2
        rw [List.getElem?_set_self hpi, hrowp]
        simp
      · rw [List.getElem?_set_ne h2]
  · exact List.getElem?_set_self (by simpa using hkrn)
  · simp [hrow2len]
  · exact List.getElem?_set_self (by rw [hrow2len]; exact hkcn)

/-- The move target cell and the box destination beyond it never resolve to
the same grid cell (needed so the `'$'` write cannot clobber the `'@'`
write). -/
theorem np_nbp_distinct {m : Grid} {pi pj : Nat} {row_p : List Char} {d : Char}
    (hrowp : m[pi]? = some row_p) (hpj : pj < row_p.length)
    (hd : d = 'U' ∨ d = 'D' ∨ d = 'L' ∨ d = 'R')
    {krn kcn kbr kbc : Nat} {row_n row_b : List Char}
    (hn1 : pyNorm m.length (dirOffset ((pi : Int), (pj : Int)) d).1 = some krn)
    (hn2 : m[krn]? = some row_n)
    (hn3 : pyNorm row_n.length (dirOffset ((pi : Int), (pj : Int)) d).2 = some kcn)
    (hb1 : pyNorm m.length (pushDest ((pi : Int), (pj : Int))
      (dirOffset ((pi : Int), (pj : Int)) d)).1 = some kbr)
    (hb2 : m[kbr]? = some row_b)
    (hb3 : pyNorm row_b.length (pushDest ((pi : Int), (pj : Int))
      (dirOffset ((pi : Int), (pj : Int)) d)).2 = some kbc) :
    krn ≠ kbr ∨ kcn ≠ kbc := by
  have hpi : pi < m.length := (List.getElem?_eq_some_iff.1 hrowp).1
  rcases hd with h | h | h | h <;> subst h
  · have e1 : dirOffset ((pi : Int), (pj : Int)) 'U' = ((pi : Int) - 1, (pj : Int)) := by
      simp [dirOffset]
    have e2 : pushDest ((pi : Int), (pj : Int)) ((pi : Int) - 1, (pj : Int)) =
        ((pi : Int) - 2, (pj : Int)) := by
      simp only [pushDest, Prod.mk.injEq]
      omega
    rw [e1] at hn1 hb1
    rw [e2] at hb1
    dsimp only at hn1 hb1
    exact Or.inl (resolve_step_ne hpi (Or.inl ⟨hn1, hb1⟩))
  · have e1 : dirOffset ((pi : Int), (pj : Int)) 'D' = ((pi : Int) + 1, (pj : Int)) := by
      simp [dirOffset]
    have e2 : pushDest ((pi : Int), (pj : Int)) ((pi : Int) + 1, (pj : Int)) =
        ((pi : Int) + 2, (pj : Int)) := by
      simp only [pushDest, Prod.mk.injEq]
      omega
    rw [e1] at hn1 hb1
    rw [e2] at hb1
    dsimp only at hn1 hb1
    exact Or.inl (resolve_step_ne hpi (Or.inr ⟨hn1, hb1⟩))
  · have e1 : dirOffset ((pi : Int), (pj : Int)) 'L' = ((pi : Int), (pj : Int) - 1) := by
      simp [dirOffset]
    have e2 : pushDest ((pi : Int), (pj : Int)) ((pi : Int), (pj : Int) - 1) =
        ((pi : Int), (pj : Int) - 2) := by
      simp only [pushDest, Prod.mk.injEq]
      omega
    rw [e1] at hn1 hn3 hb1 hb3
    rw [e2] at hb1 hb3
    dsimp only at hn1 hn3 hb1 hb3
    have hkrn : krn = pi := pyNorm_natCast_inv hn1
    have hkbr : kbr = pi := pyNorm_natCast_inv hb1
    have hrn : row_n = row_p := by
      rw [hkrn, hrowp] at hn2
      injection hn2 with h2
      exact h2.symm
    have hrb : row_b = row_p := by
      rw [hkbr, hrowp] at hb2
      injection hb2 with h2
      exact h2.symm
    rw [hrn] at hn3
    rw [hrb] at hb3
    exact Or.inr (resolve_step_ne hpj (Or.inl ⟨hn3, hb3⟩))
  · have e1 : dirOffset ((pi : Int), (pj : Int)) 'R' = ((pi : Int), (pj : Int) + 1) := by
      simp [dirOffset]
    have e2 : pushDest ((pi : Int), (pj : Int)) ((pi : Int), (pj : Int) + 1) =
        ((pi : Int), (pj : Int) + 2) := by
      simp only [pushDest, Prod.mk.injEq]
      omega
    rw [e1] at hn1 hn3 hb1 hb3
    rw [e2] at hb1 hb3
    dsimp only at hn1 hn3 hb1 hb3
    have hrn : row_n = row_p := by
      rw [pyNorm_natCast_inv hn1, hrowp] at hn2
      injection hn2 with h2
      exact h2.symm
    have hrb : row_b = row_p := by
      rw [pyNorm_natCast_inv hb1, hrowp] at hb2
      injection hb2 with h2
      exact h2.symm
    rw [hrn] at hn3
    rw [hrb] at hb3
    exact Or.inr (resolve_step_ne hpj (Or.inr ⟨hn3, hb3⟩))

/-- The constructor arguments a valid move passes to
`GameState(new_map, self.current_cost + 1)`: control reaches that `return`
statement (`moveTag s d = .ok (some _)`), the cost argument is
`current_cost + 1`, and in the `new_map` argument the player (and, for a
push, the box) stand on their destination cells with the intended
symbols.  This is only the argument computation: the constructor call
itself raises (see `move`). -/
theorem moveTag_reaches_constructor_args
    (s : GameState) (pi pj : Nat) (d : Char)
    (hp : find_player s.map = some (pi, pj))
    (hd : d = 'U' ∨ d = 'D' ∨ d = 'L' ∨ d = 'R') :
    (∀ c, mapGet s.map (dirOffset ((pi : Int), (pj : Int)) d) = .ok c →
      c = ' ' ∨ c = '.' →
      ∃ m2, moveTag s d = .ok (some (GameState.mk m2 (s.current_cost + 1))) ∧
        mapGet m2 (dirOffset ((pi : Int), (pj : Int)) d) =
          .ok (if c = '.' then '+' else '@')) ∧
    (∀ cb cd, mapGet s.map (dirOffset ((pi : Int), (pj : Int)) d) = .ok cb →
      cb = '$' ∨ cb = '*' →
      mapGet s.map (pushDest ((pi : Int), (pj : Int))
        (dirOffset ((pi : Int), (pj : Int)) d)) = .ok cd →
      cd ≠ '#' → cd ≠ '$' → cd ≠ '*' →
      ∃ m2, moveTag s d = .ok (some (GameState.mk m2 (s.current_cost + 1))) ∧
        mapGet m2 (dirOffset ((pi : Int), (pj : Int)) d) = .ok '@' ∧
        mapGet m2 (pushDest ((pi : Int), (pj : Int))
          (dirOffset ((pi : Int), (pj : Int)) d)) =
            .ok (if cd = '.' then '*' else '$')) := by
  obtain ⟨row_p, c_p, hrowp, hcellp, hpc⟩ := find_player_cell hp
  have hpi : pi < s.map.length := (List.getElem?_eq_some_iff.1 hrowp).1
  have hpj : pj < row_p.length := (List.getElem?_eq_some_iff.1 hcellp).1
  have hcP : mapGet s.map ((pi : Int), (pj : Int)) = .ok c_p :=
    mapGet_ok_of (p := ((pi : Int), (pj : Int))) (pyNorm_natCast hpi) hrowp
      (pyNorm_natCast hpj) hcellp
  constructor
  · intro c hc hcfree
    obtain ⟨krn, row_n, kcn, hn1, hn2, hn3, hn4⟩ := mapGet_ok_iff.1 hc
    have hkrn : krn < s.map.length := (List.getElem?_eq_some_iff.1 hn2).1
    have hkcn : kcn < row_n.length := pyNorm_some_lt hn3
    have hwall : is_wall s (dirOffset ((pi : Int), (pj : Int)) d) = .ok false := by
      unfold is_wall
      rw [hc, except_map_ok]
      rcases hcfree with h | h <;> subst h <;> rfl
    have hbox : is_box s (dirOffset ((pi : Int), (pj : Int)) d) = .ok false := by
      unfold is_box
      rw [hc, except_map_ok]
      rcases hcfree with h | h <;> subst h <;> rfl
    obtain ⟨M1, M2, M3, row3, hM1, hM2, hM3, hM3len, hM3shape, hM3get, hrow3len,
      hrow3cell⟩ := build_enter hrowp hcellp hn1 hn2 hn3
    by_cases hdot : c = '.'
    · subst hdot
      have hM4 : mapSet M3 (dirOffset ((pi : Int), (pj : Int)) d) '+' =
          .ok (M3.set krn (row3.set kcn '+')) :=
        mapSet_ok_of (p := dirOffset ((pi : Int), (pj : Int)) d)
          (by rw [hM3len]; exact hn1) hM3get (by rw [hrow3len]; exact hn3)
      refine ⟨M3.set krn (row3.set kcn '+'), ?_, ?_⟩
      · unfold moveTag
        rw [hp]
        by_cases hcp : c_p = '+'
        · rw [if_pos hcp] at hM2
          simp [if_pos hd, hwall, hbox, hcP, hc, hcp, hM1, hM2, hM3, hM4,
            except_bind_ok, pure, Except.pure]
        · rw [if_neg hcp] at hM2
          have hM2eq : M1 = M2 := by simpa [pure, Except.pure] using hM2
          subst hM2eq
          simp [if_pos hd, hwall, hbox, hcP, hc, hcp, hM1, hM3, hM4,
            except_bind_ok, pure, Except.pure]
      · exact mapGet_ok_of (p := dirOffset ((pi : Int), (pj : Int)) d)
          (by simp only [List.length_set]; rw [hM3len]; exact hn1)
          (List.getElem?_set_self (by rw [hM3len]; exact hkrn))
          (by simp only [List.length_set]; rw [hrow3len]; exact hn3)
          (List.getElem?_set_self (by rw [hrow3len]; exact hkcn))
    · have hcsp : c = ' ' := by rcases hcfree with h | h <;> [exact h; exact absurd h hdot]
      subst hcsp
      refine ⟨M3, ?_, ?_⟩
      · unfold moveTag
        rw [hp]
        by_cases hcp : c_p = '+'
        · rw [if_pos hcp] at hM2
          simp [if_pos hd, hwall, hbox, hcP, hc, hcp, hM1, hM2, hM3,
            except_bind_ok, pure, Except.pure]
        · rw [if_neg hcp] at hM2
          have hM2eq : M1 = M2 := by simpa [pure, Except.pure] using hM2
          subst hM2eq
          simp [if_pos hd, hwall, hbox, hcP, hc, hcp, hM1, hM3,
            except_bind_ok, pure, Except.pure]
      · exact mapGet_ok_of (p := dirOffset ((pi : Int), (pj : Int)) d)
          (by rw [hM3len]; exact hn1) hM3get (by rw [hrow3len]; exact hn3) hrow3cell
  · intro cb cd hcb hcbval hcd hcd1 hcd2 hcd3
    obtain ⟨krn, row_n, kcn, hn1, hn2, hn3, hn4⟩ := mapGet_ok_iff.1 hcb
    obtain ⟨kbr, row_b, kbc, hb1, hb2, hb3, hb4⟩ := mapGet_ok_iff.1 hcd
    have hkrn : krn < s.map.length := (List.getElem?_eq_some_iff.1 hn2).1
    have hkcn : kcn < row_n.length := pyNorm_some_lt hn3
    have hkbr : kbr < s.map.length := (List.getElem?_eq_some_iff.1 hb2).1
    have hkbc : kbc < row_b.length := pyNorm_some_lt hb3
    have hwall : is_wall s (dirOffset ((pi : Int), (pj : Int)) d) = .ok false := by
      unfold is_wall
      rw [hcb, except_map_ok]
      rcases hcbval with h | h <;> subst h <;> rfl
    have hboxT : is_box s (dirOffset ((pi : Int), (pj : Int)) d) = .ok true := by
      unfold is_box
      rw [hcb, except_map_ok]
      rcases hcbval with h | h <;> subst h <;> rfl
    have hwall2 : is_wall s (pushDest ((pi : Int), (pj : Int))
        (dirOffset ((pi : Int), (pj : Int)) d)) = .ok false := by
      unfold is_wall
      rw [hcd, except_map_ok]
      have h1 : (cd == '#') = false := beq_eq_false_iff_ne.2 hcd1
      rw [h1]
    have hbox2 : is_box s (pushDest ((pi : Int), (pj : Int))
        (dirOffset ((pi : Int), (pj : Int)) d)) = .ok false := by
      unfold is_box
      rw [hcd, except_map_ok]
      rw [beq_eq_false_iff_ne.2 hcd2, beq_eq_false_iff_ne.2 hcd3]
      rfl
    obtain ⟨M1, M2, M3, row3, hM1, hM2, hM3, hM3len, hM3shape, hM3get, hrow3len,
      hrow3cell⟩ := build_enter hrowp hcellp hn1 hn2 hn3
    have hrow4 : ∃ row4, M3[kbr]? = some row4 ∧ row4.length = row_b.length := by
      have hsh := hM3shape kbr
      rw [hb2] at hsh
      cases h4 : M3[kbr]? with
      | none => rw [h4] at hsh; exact absurd hsh (by simp)
      | some row4 =>
        rw [h4] at hsh
        refine ⟨row4, rfl, ?_⟩
        injection hsh
    obtain ⟨row4, hrow4get, hrow4len⟩ := hrow4
    have hM5 : mapSet M3 (pushDest ((pi : Int), (pj : Int))
        (dirOffset ((pi : Int), (pj : Int)) d)) '$' =
        .ok (M3.set kbr (row4.set kbc '$')) :=
      mapSet_ok_of (p := pushDest ((pi : Int), (pj : Int))
          (dirOffset ((pi : Int), (pj : Int)) d))
        (by rw [hM3len]; exact hb1) hrow4get (by rw [hrow4len]; exact hb3)
    have hM6 : (if cd = '.' then
        mapSet (M3.set kbr (row4.set kbc '$')) (pushDest ((pi : Int), (pj : Int))
          (dirOffset ((pi : Int), (pj : Int)) d)) '*'
        else (pure (M3.set kbr (row4.set kbc '$')) : Except PyError Grid)) =
        .ok (M3.set kbr (row4.set kbc (if cd = '.' then '*' else '$'))) := by
      by_cases hdot : cd = '.'
      · rw [if_pos hdot, if_pos hdot]
        have hstep : mapSet (M3.set kbr (row4.set kbc '$'))
            (pushDest ((pi : Int), (pj : Int))
              (dirOffset ((pi : Int), (pj : Int)) d)) '*' =
            .ok ((M3.set kbr (row4.set kbc '$')).set kbr
              ((row4.set kbc '$').set kbc '*')) :=
          mapSet_ok_of (p := pushDest ((pi : Int), (pj : Int))
              (dirOffset ((pi : Int), (pj : Int)) d))
            (by simp only [List.length_set]; rw [hM3len]; exact hb1)
            (List.getElem?_set_self (by rw [hM3len]; exact hkbr))
            (by simp only [List.length_set]; rw [hrow4len]; exact hb3)
        rw [hstep, List.set_set, List.set_set]
      · rw [if_neg hdot, if_neg hdot]
        rfl
    have hcbne : ¬(cb = '.') := by rcases hcbval with h | h <;> subst h <;> decide
    have hne : krn ≠ kbr ∨ kcn ≠ kbc :=
      np_nbp_distinct hrowp hpj hd hn1 hn2 hn3 hb1 hb2 hb3
    refine ⟨M3.set kbr (row4.set kbc (if cd = '.' then '*' else '$')), ?_, ?_, ?_⟩
    · unfold moveTag
      rw [hp]
      by_cases hdot2 : cd = '.'
      · simp only [if_pos hdot2] at hM6
        by_cases hcp : c_p = '+'
        · rw [if_pos hcp] at hM2
          simp [if_pos hd, hwall, hboxT, hwall2, hbox2, hcP, hcb, hcd, hcp, hdot2,
            if_neg hcbne, hM1, hM2, hM3, hM5, hM6, except_bind_ok, pure, Except.pure]
        · rw [if_neg hcp] at hM2
          have hM2eq : M1 = M2 := by simpa [pure, Except.pure] using hM2
          subst hM2eq
          simp [if_pos hd, hwall, hboxT, hwall2, hbox2, hcP, hcb, hcd, hcp, hdot2,
            if_neg hcbne, hM1, hM3, hM5, hM6, except_bind_ok, pure, Except.pure]
      · by_cases hcp : c_p = '+'
        · rw [if_pos hcp] at hM2
          simp [if_pos hd, hwall, hboxT, hwall2, hbox2, hcP, hcb, hcd, hcp, hdot2,
            if_neg hcbne, hM1, hM2, hM3, hM5, except_bind_ok, pure, Except.pure]
        · rw [if_neg hcp] at hM2
          have hM2eq : M1 = M2 := by simpa [pure, Except.pure] using hM2
          subst hM2eq
          simp [if_pos hd, hwall, hboxT, hwall2, hbox2, hcP, hcb, hcd, hcp, hdot2,
            if_neg hcbne, hM1, hM3, hM5, except_bind_ok, pure, Except.pure]
    · by_cases hrr : krn = kbr
      · have hkcbne : kcn ≠ kbc := by
          rcases hne with h | h
          · exact absurd hrr h
          · exact h
        have hrow43 : row4 = row3 := by
          rw [← hrr] at hrow4get
          rw [hM3get] at hrow4get
          injection hrow4get with h4
          exact h4.symm
        subst hrow43
        have h2 : (M3.set kbr (row4.set kbc (if cd = '.' then '*' else '$')))[krn]? =
            some (row4.set kbc (if cd = '.' then '*' else '$')) := by
          rw [hrr]
          exact List.getElem?_set_self (by rw [hM3len]; exact hkbr)
        have h3 : pyNorm (row4.set kbc (if cd = '.' then '*' else '$')).length
            (dirOffset ((pi : Int), (pj : Int)) d).2 = some kcn := by
          simp only [List.length_set]
          rw [hrow3len]
          exact hn3
        have h4 : (row4.set kbc (if cd = '.' then '*' else '$'))[kcn]? = some '@' := by
          rw [List.getElem?_set_ne (Ne.symm hkcbne)]
          exact hrow3cell
        exact mapGet_ok_of (p := dirOffset ((pi : Int), (pj : Int)) d)
          (by simp only [List.length_set]; rw [hM3len]; exact hn1) h2 h3 h4
      · have h2 : (M3.set kbr (row4.set kbc (if cd = '.' then '*' else '$')))[krn]? =
            some row3 := by
          rw [List.getElem?_set_ne (Ne.symm hrr)]
          exact hM3get
        exact mapGet_ok_of (p := dirOffset ((pi : Int), (pj : Int)) d)
          (by simp only [List.length_set]; rw [hM3len]; exact hn1) h2
          (by rw [hrow3len]; exact hn3) hrow3cell
    · exact mapGet_ok_of (p := pushDest ((pi : Int), (pj : Int))
          (dirOffset ((pi : Int), (pj : Int)) d))
        (by simp only [List.length_set]; rw [hM3len]; exact hb1)
        (List.getElem?_set_self (by rw [hM3len]; exact hkbr))
        (by simp only [List.length_set]; rw [hrow4len]; exact hb3)
        (List.getElem?_set_self (by rw [hrow4len]; exact hkbc))

/-- C7: the claim says a move whose target cell is not a wall returns a
*new* state with path cost `current_cost + 1` and the player (and pushed
box) relocated.  The code computes exactly the claimed `new_map` and cost
arguments and passes them to `GameState(new_map, self.current_cost + 1)` —
but that constructor unconditionally raises AttributeError (the
assignment-order slip in `__init__`), so every valid move raises instead
of returning the new state: `move s d = .error .attributeError`, while
`moveTag` exhibits the constructor arguments matching the claim. -/
theorem valid_move_reaches_constructor_then_raises
    (s : GameState) (pi pj : Nat) (d : Char)
    (hp : find_player s.map = some (pi, pj))
    (hd : d = 'U' ∨ d = 'D' ∨ d = 'L' ∨ d = 'R') :
    (∀ c, mapGet s.map (dirOffset ((pi : Int), (pj : Int)) d) = .ok c →
      c = ' ' ∨ c = '.' →
      move s d = .error .attributeError ∧
      ∃ m2, moveTag s d = .ok (some (GameState.mk m2 (s.current_cost + 1))) ∧
        mapGet m2 (dirOffset ((pi : Int), (pj : Int)) d) =
          .ok (if c = '.' then '+' else '@')) ∧
    (∀ cb cd, mapGet s.map (dirOffset ((pi : Int), (pj : Int)) d) = .ok cb →
      cb = '$' ∨ cb = '*' →
      mapGet s.map (pushDest ((pi : Int), (pj : Int))
        (dirOffset ((pi : Int), (pj : Int)) d)) = .ok cd →
      cd ≠ '#' → cd ≠ '$' → cd ≠ '*' →
      move s d = .error .attributeError ∧
      ∃ m2, moveTag s d = .ok (some (GameState.mk m2 (s.current_cost + 1))) ∧
        mapGet m2 (dirOffset ((pi : Int), (pj : Int)) d) = .ok '@' ∧
        mapGet m2 (pushDest ((pi : Int), (pj : Int))
          (dirOffset ((pi : Int), (pj : Int)) d)) =
            .ok (if cd = '.' then '*' else '$')) := by
  obtain ⟨h1, h2⟩ := moveTag_reaches_constructor_args s pi pj d hp hd
  constructor
  · intro c hc hcfree
    obtain ⟨m2, hmt, hcell⟩ := h1 c hc hcfree
    refine ⟨?_, m2, hmt, hcell⟩
    unfold move
    rw [hmt]
    rfl
  · intro cb cd hcb hcbval hcd hcd1 hcd2 hcd3
    obtain ⟨m2, hmt, hcell1, hcell2⟩ := h2 cb cd hcb hcbval hcd hcd1 hcd2 hcd3
    refine ⟨?_, m2, hmt, hcell1, hcell2⟩
    unfold move
    rw [hmt]
    rfl

/-- Witness for C7: on `mapA` moving `'R'` walks the player onto the empty
cell, on `mapStar` moving `'R'` pushes the box off its target onto the
empty cell; in both cases the arguments passed to the constructor carry
cost 1 and the relocated pieces, and `move` itself raises AttributeError. -/
theorem valid_move_reaches_constructor_then_raises_witness :
    (move (GameState.mk mapA 0) 'R' = .error .attributeError ∧
      ∃ m2, moveTag (GameState.mk mapA 0) 'R' =
        .ok (some (GameState.mk m2 1)) ∧
      mapGet m2 (dirOffset ((1 : Int), (1 : Int)) 'R') =
        .ok (if (' ' : Char) = '.' then '+' else '@')) ∧
    (move (GameState.mk mapStar 0) 'R' = .error .attributeError ∧
      ∃ m2, moveTag (GameState.mk mapStar 0) 'R' =
        .ok (some (GameState.mk m2 1)) ∧
      mapGet m2 (dirOffset ((1 : Int), (1 : Int)) 'R') = .ok '@' ∧
      mapGet m2 (pushDest ((1 : Int), (1 : Int))
        (dirOffset ((1 : Int), (1 : Int)) 'R')) =
          .ok (if (' ' : Char) = '.' then '*' else '$')) :=
  ⟨(valid_move_reaches_constructor_then_raises (GameState.mk mapA 0) 1 1 'R' rfl
      (Or.inr (Or.inr (Or.inr rfl)))).1 ' ' rfl (Or.inl rfl),
   (valid_move_reaches_constructor_then_raises (GameState.mk mapStar 0) 1 1 'R' rfl
      (Or.inr (Or.inr (Or.inr rfl)))).2 '*' ' ' rfl (Or.inr rfl) rfl
      (by decide) (by decide) (by decide)⟩

/-- Inversion of a successful `Except` bind. -/
theorem bind_ok_some {α β : Type} {x : Except PyError α} {f : α → Except PyError β}
    {b : β} (h : (x >>= f) = .ok b) : ∃ a, x = .ok a ∧ f a = .ok b := by
  cases x with
  | error e => rw [except_bind_err] at h; exact absurd h (by simp)
  | ok a => exact ⟨a, rfl, by rwa [except_bind_ok] at h⟩

/-- Whenever `move` constructs a new state, its path cost is exactly the
input's cost plus one (both `GameState(new_map, self.current_cost + 1)`
sites). -/
theorem moveTag_some_cost {s : GameState} {d : Char} {s2 : GameState}
    (h : moveTag s d = .ok (some s2)) :
    s2.current_cost = s.current_cost + 1 := by
  unfold moveTag at h
  cases hfp : find_player s.map with
  | none => rw [hfp] at h; exact absurd h (by simp)
  | some pp =>
    obtain ⟨pi, pj⟩ := pp
    rw [hfp] at h
    dsimp only at h
    by_cases hd : d = 'U' ∨ d = 'D' ∨ d = 'L' ∨ d = 'R'
    case neg => rw [if_neg hd] at h; exact absurd h (by simp)
    rw [if_pos hd] at h
    obtain ⟨w, hw, h⟩ := bind_ok_some h
    split at h
    · obtain ⟨b, hb, h⟩ := bind_ok_some h
      split at h
      · -- push branch: ok2 check then the six writes
        obtain ⟨k2, hk2, h⟩ := bind_ok_some h
        split at h
        · obtain ⟨cP, hcP2, h⟩ := bind_ok_some h
          obtain ⟨cN, hcN2, h⟩ := bind_ok_some h
          obtain ⟨cB, hcB2, h⟩ := bind_ok_some h
          obtain ⟨m1, hm1, h⟩ := bind_ok_some h
          split at h
          all_goals obtain ⟨y1, hy1, h⟩ := bind_ok_some h
          all_goals obtain ⟨m3, hm3, h⟩ := bind_ok_some h
          all_goals split at h
          all_goals obtain ⟨y2, hy2, h⟩ := bind_ok_some h
          all_goals obtain ⟨m5, hm5, h⟩ := bind_ok_some h
          all_goals split at h
          all_goals obtain ⟨y3, hy3, h⟩ := bind_ok_some h
          all_goals injection h with h2
          all_goals injection h2 with h3
          all_goals rw [← h3]
        · exact absurd h (by simp [pure, Except.pure])
      · -- free move: the four writes
        obtain ⟨cP, hcP2, h⟩ := bind_ok_some h
        obtain ⟨cN, hcN2, h⟩ := bind_ok_some h
        obtain ⟨m1, hm1, h⟩ := bind_ok_some h
        split at h
        all_goals obtain ⟨y1, hy1, h⟩ := bind_ok_some h
        all_goals obtain ⟨m3, hm3, h⟩ := bind_ok_some h
        all_goals split at h
        all_goals obtain ⟨y2, hy2, h⟩ := bind_ok_some h
        all_goals injection h with h2
        all_goals injection h2 with h3
        all_goals rw [← h3]
    · exact absurd h (by simp [pure, Except.pure])

/-- Every entry the direction loop pushes satisfies `cost = path length`,
because a blocked move returns the just-visited object (pruned by the
visited test) and a successful move costs exactly one more with a
one-longer path. -/
theorem expandDirs_pushed_inv (cur : SEntry) (visited : List Nat)
    (hself : cur.refId ∈ visited)
    (hcur : cur.state.current_cost = cur.path.length) :
    ∀ (ds : List Char) (ctr : Nat) (l : List SEntry) (c2 : Nat),
      expandDirs cur visited ds ctr = .ok (l, c2) →
      ∀ e ∈ l, e.state.current_cost = e.path.length := by
  intro ds
  induction ds with
  | nil =>
    intro ctr l c2 h e he
    unfold expandDirs at h
    injection h with h1
    have hl : l = [] := (congrArg Prod.fst h1).symm
    subst hl
    simp at he
  | cons d ds ih =>
    intro ctr l c2 h e he
    unfold expandDirs at h
    obtain ⟨r, hr, h⟩ := bind_ok_some h
    cases r with
    | none =>
      obtain ⟨⟨pl, pc⟩, hpp, h⟩ := bind_ok_some h
      split at h
      · injection h with h1
        have hl : pl = l := congrArg Prod.fst h1
        subst hl
        exact ih ctr pl pc hpp e he
      · next h2 => exact absurd hself h2
    | some s2 =>
      obtain ⟨⟨pl, pc⟩, hpp, h⟩ := bind_ok_some h
      split at h
      · injection h with h1
        have hl : pl = l := congrArg Prod.fst h1
        subst hl
        exact ih (ctr + 1) pl pc hpp e he
      · injection h with h1
        have hl : (⟨s2, ctr, cur.path ++ [d]⟩ : SEntry) :: pl = l :=
          congrArg Prod.fst h1
        subst hl
        cases he with
        | head =>
          show s2.current_cost = (cur.path ++ [d]).length
          rw [moveTag_some_cost hr, hcur]
          simp
        | tail _ hmem => exact ih (ctr + 1) pl pc hpp e hmem

/-- One loop iteration preserves the cost/path-length invariant, and a
popped solved state is returned with a path exactly as long as its cost. -/
theorem stepAt_preserves_inv {M : SearchM} (k : Nat)
    (hM : ∀ e ∈ M.frontier, e.state.current_cost = e.path.length) :
    (∀ M2, stepAt k M = .ok (.next M2) →
      ∀ e ∈ M2.frontier, e.state.current_cost = e.path.length) ∧
    (∀ g p, stepAt k M = .ok (.found g p) → g.current_cost = p.length) := by
  have hpop : M.frontier ≠ [] →
      M.frontier.getD (k % M.frontier.length) default ∈ M.frontier := by
    intro hne
    have hlt : k % M.frontier.length < M.frontier.length :=
      Nat.mod_lt _ (List.length_pos.2 hne)
    rw [List.getD_eq_getElem?_getD, List.getElem?_eq_getElem hlt]
    exact List.getElem_mem hlt
  constructor
  · intro M2 h
    unfold stepAt at h
    split at h
    · exact absurd h (by simp)
    · next e0 rest0 heq =>
      have hne : M.frontier ≠ [] := by
        rw [heq]
        simp
      dsimp only at h
      split at h
      · exact absurd h (by simp)
      · split at h
        · injection h with h1
          injection h1 with h2
          rw [← h2]
          intro e he
          exact hM e (List.eraseIdx_subset _ _ he)
        · obtain ⟨pp, hpp, h⟩ := bind_ok_some h
          injection h with h1
          injection h1 with h2
          rw [← h2]
          intro e he
          rcases List.mem_append.1 he with he2 | he2
          · exact hM e (List.eraseIdx_subset _ _ he2)
          · refine expandDirs_pushed_inv _ _ (List.mem_cons_self _ _) ?_
              _ _ _ _ hpp e he2
            exact hM _ (hpop hne)
  · intro g p h
    unfold stepAt at h
    split at h
    · exact absurd h (by simp)
    · next e0 rest0 heq =>
      have hne : M.frontier ≠ [] := by
        rw [heq]
        simp
      dsimp only at h
      split at h
      · injection h with h1
        injection h1 with h2 h3
        rw [← h2, ← h3]
        exact hM _ (hpop hne)
      · split at h
        · exact absurd h (by simp)
        · obtain ⟨pp, hpp, h⟩ := bind_ok_some h
          exact absurd h (by simp [pure, Except.pure])

/-- C8: starting any strategy loop from an initial state of cost 0, every
entry ever placed on the frontier satisfies
`state.get_current_cost() = path.length`, whichever frontier position each
iteration pops (position 0 is `bfs`, the last position is `dfs`, a priority
queue pops some position too); when a solved state is popped, the returned
path's length equals that state's cost. -/
theorem frontier_cost_equals_path_length (s0 : GameState)
    (h0 : s0.current_cost = 0) (ks : List Nat) :
    (∀ M, runSteps (initMachine s0) ks = .running M →
      ∀ e ∈ M.frontier, get_current_cost e.state = e.path.length) ∧
    (∀ g p, runSteps (initMachine s0) ks = .found g p →
      get_current_cost g = p.length) := by
  suffices h : ∀ (ks2 : List Nat) (M : SearchM),
      (∀ e ∈ M.frontier, e.state.current_cost = e.path.length) →
      (∀ M2, runSteps M ks2 = .running M2 →
        ∀ e ∈ M2.frontier, e.state.current_cost = e.path.length) ∧
      (∀ g p, runSteps M ks2 = .found g p → g.current_cost = p.length) by
    have hbase : ∀ e ∈ (initMachine s0).frontier,
        e.state.current_cost = e.path.length := by
      intro e he
      simp only [initMachine, List.mem_singleton] at he
      rw [he, h0]
      rfl
    exact (h ks (initMachine s0) hbase)
  intro ks2
  induction ks2 with
  | nil =>
    intro M hM
    constructor
    · intro M2 h
      injection h with h1
      rwa [← h1]
    · intro g p h
      exact absurd h (by simp [runSteps])
  | cons k ks2 ih =>
    intro M hM
    constructor
    · intro M2 h
      unfold runSteps at h
      cases hs : stepAt k M with
      | error e => rw [hs] at h; exact absurd h (by simp)
      | ok r =>
        rw [hs] at h
        cases r with
        | found g p => exact absurd h (by simp)
        | empty => exact absurd h (by simp)
        | next Mn => exact (ih Mn ((stepAt_preserves_inv k hM).1 Mn hs)).1 M2 h
    · intro g p h
      unfold runSteps at h
      cases hs : stepAt k M with
      | error e => rw [hs] at h; exact absurd h (by simp)
      | ok r =>
        rw [hs] at h
        cases r with
        | found g2 p2 =>
          have hg : g2 = g ∧ p2 = p := by
            injection h with h1 h2
            exact ⟨h1, h2⟩
          rw [← hg.1, ← hg.2]
          exact (stepAt_preserves_inv k hM).2 g2 p2 hs
        | empty => exact absurd h (by simp)
        | next Mn => exact (ih Mn ((stepAt_preserves_inv k hM).1 Mn hs)).2 g p h

/-- Witness for C8: one FIFO step from `mapA` (cost 0). -/
theorem frontier_cost_equals_path_length_witness :
    (∀ M, runSteps (initMachine (GameState.mk mapA 0)) [0] = .running M →
      ∀ e ∈ M.frontier, get_current_cost e.state = e.path.length) ∧
    (∀ g p, runSteps (initMachine (GameState.mk mapA 0)) [0] = .found g p →
      get_current_cost g = p.length) :=
  frontier_cost_equals_path_length (GameState.mk mapA 0) rfl [0]

/-- Moves on `mapA`: up, down (push into the bottom wall) and left are
blocked (`return self`); right reaches `mapB` at cost + 1. -/
theorem moveA_U (c : Nat) : moveTag (GameState.mk mapA c) 'U' = .ok none := rfl

theorem moveA_D (c : Nat) : moveTag (GameState.mk mapA c) 'D' = .ok none := rfl

theorem moveA_L (c : Nat) : moveTag (GameState.mk mapA c) 'L' = .ok none := rfl

theorem moveA_R (c : Nat) :
    moveTag (GameState.mk mapA c) 'R' = .ok (some (GameState.mk mapB (c + 1))) := rfl

/-- Moves on `mapB`: down reaches `mapC`, left returns to an `mapA` layout. -/
theorem moveB_U (c : Nat) : moveTag (GameState.mk mapB c) 'U' = .ok none := rfl

theorem moveB_D (c : Nat) :
    moveTag (GameState.mk mapB c) 'D' = .ok (some (GameState.mk mapC (c + 1))) := rfl

theorem moveB_L (c : Nat) :
    moveTag (GameState.mk mapB c) 'L' = .ok (some (GameState.mk mapA (c + 1))) := rfl

theorem moveB_R (c : Nat) : moveTag (GameState.mk mapB c) 'R' = .ok none := rfl

/-- Moves on `mapC`: only up (back to `mapB`) succeeds; left would push the
box into the left wall. -/
theorem moveC_U (c : Nat) :
    moveTag (GameState.mk mapC c) 'U' = .ok (some (GameState.mk mapB (c + 1))) := rfl

theorem moveC_D (c : Nat) : moveTag (GameState.mk mapC c) 'D' = .ok none := rfl

theorem moveC_L (c : Nat) : moveTag (GameState.mk mapC c) 'L' = .ok none := rfl

theorem moveC_R (c : Nat) : moveTag (GameState.mk mapC c) 'R' = .ok none := rfl

/-- None of the three live layouts is solved (the box sits off-target). -/
theorem checkA (c : Nat) : check_solved (GameState.mk mapA c) = false := rfl

theorem checkB (c : Nat) : check_solved (GameState.mk mapB c) = false := rfl

theorem checkC (c : Nat) : check_solved (GameState.mk mapC c) = false := rfl

/-- Expanding an `mapA` entry pushes exactly the fresh `mapB` successor. -/
theorem expand_mapA (c rid : Nat) (path : List Char) (visited : List Nat)
    (ctr : Nat) (hrid : rid ∈ visited) (hctr : ctr ∉ visited) :
    expandDirs ⟨GameState.mk mapA c, rid, path⟩ visited ['U', 'D', 'L', 'R'] ctr =
      .ok ([⟨GameState.mk mapB (c + 1), ctr, path ++ ['R']⟩], ctr + 1) := by
  simp [expandDirs, moveA_U, moveA_D, moveA_L, moveA_R, except_bind_ok,
    hrid, hctr, pure, Except.pure]

/-- Expanding an `mapB` entry pushes the fresh `mapC` and `mapA` successors. -/
theorem expand_mapB (c rid : Nat) (path : List Char) (visited : List Nat)
    (ctr : Nat) (hrid : rid ∈ visited) (hctr : ctr ∉ visited)
    (hctr2 : ctr + 1 ∉ visited) :
    expandDirs ⟨GameState.mk mapB c, rid, path⟩ visited ['U', 'D', 'L', 'R'] ctr =
      .ok ([⟨GameState.mk mapC (c + 1), ctr, path ++ ['D']⟩,
            ⟨GameState.mk mapA (c + 1), ctr + 1, path ++ ['L']⟩], ctr + 2) := by
  simp [expandDirs, moveB_U, moveB_D, moveB_L, moveB_R, except_bind_ok,
    hrid, hctr, hctr2, pure, Except.pure]

/-- Expanding an `mapC` entry pushes exactly the fresh `mapB` successor. -/
theorem expand_mapC (c rid : Nat) (path : List Char) (visited : List Nat)
    (ctr : Nat) (hrid : rid ∈ visited) (hctr : ctr ∉ visited) :
    expandDirs ⟨GameState.mk mapC c, rid, path⟩ visited ['U', 'D', 'L', 'R'] ctr =
      .ok ([⟨GameState.mk mapB (c + 1), ctr, path ++ ['U']⟩], ctr + 1) := by
  simp [expandDirs, moveC_U, moveC_D, moveC_L, moveC_R, except_bind_ok,
    hrid, hctr, pure, Except.pure]

/-- Reassembling the invariant after one expansion: the remaining frontier
entries keep their properties and the freshly pushed entries have new,
distinct identities at or above the old counter. -/
theorem bfsInv_rebuild (rest news : List SEntry) (visited : List Nat)
    (erid ctr ctr2 : Nat)
    (hrest_maps : ∀ e ∈ rest, e.state.map ∈ bfsLiveMaps)
    (hrest_vis : ∀ e ∈ rest, e.refId ∉ visited)
    (hrest_lt : ∀ e ∈ rest, e.refId < ctr)
    (hrest_nodup : (rest.map (fun e => e.refId)).Nodup)
    (herid_lt : erid < ctr)
    (herid_notin : erid ∉ rest.map (fun e => e.refId))
    (hvis_lt : ∀ v ∈ visited, v < ctr)
    (hctr2 : ctr ≤ ctr2)
    (hnews_ne : news ≠ [])
    (hnews_maps : ∀ e ∈ news, e.state.map ∈ bfsLiveMaps)
    (hnews_lb : ∀ e ∈ news, ctr ≤ e.refId)
    (hnews_lt : ∀ e ∈ news, e.refId < ctr2)
    (hnews_nodup : (news.map (fun e => e.refId)).Nodup) :
    bfsInv ⟨rest ++ news, erid :: visited, ctr2⟩ := by
  unfold bfsInv
  dsimp only
  refine ⟨by simp [hnews_ne], ?_, ?_, ?_, ?_, ?_⟩
  · intro e he
    rcases List.mem_append.1 he with h | h
    · exact hrest_maps e h
    · exact hnews_maps e h
  · intro e he
    rcases List.mem_append.1 he with h | h
    · intro hv
      rcases List.mem_cons.1 hv with h2 | h2
      · exact herid_notin (h2 ▸ List.mem_map_of_mem (fun e => e.refId) h)
      · exact hrest_vis e h h2
    · intro hv
      have hle := hnews_lb e h
      rcases List.mem_cons.1 hv with h2 | h2
      · omega
      · exact absurd (hvis_lt _ h2) (by omega)
  · intro e he
    rcases List.mem_append.1 he with h | h
    · have := hrest_lt e h
      omega
    · exact hnews_lt e h
  · rw [List.map_append, List.nodup_append]
    refine ⟨hrest_nodup, hnews_nodup, ?_⟩
    intro a ha hb
    rcases List.mem_map.1 ha with ⟨e1, he1, hae⟩
    rcases List.mem_map.1 hb with ⟨e2, he2, hbe⟩
    have h1 := hrest_lt e1 he1
    have h2 := hnews_lb e2 he2
    omega
  · intro v hv
    rcases List.mem_cons.1 hv with h | h
    · omega
    · have := hvis_lt v h
      omega

/-- One FIFO iteration from an invariant-satisfying machine steps to
another invariant-satisfying machine (never found, never empty, never an
error). -/
theorem bfsInv_step {M : SearchM} (h : bfsInv M) :
    ∃ M2, stepAt 0 M = .ok (.next M2) ∧ bfsInv M2 := by
  obtain ⟨hne, hmaps, hvis, hlt, hnodup, hvlt⟩ := h
  cases hf : M.frontier with
  | nil => exact absurd hf hne
  | cons e rest =>
    obtain ⟨⟨emap, ecost⟩, erid, epath⟩ := e
    have hmem : (⟨GameState.mk emap ecost, erid, epath⟩ : SEntry) ∈ M.frontier := by
      rw [hf]
      exact List.mem_cons_self _ _
    have hmapE : emap ∈ bfsLiveMaps := hmaps _ hmem
    have hvisE : erid ∉ M.visited := hvis _ hmem
    have hltE : erid < M.ctr := hlt _ hmem
    have hnodup2 := hnodup
    rw [hf] at hnodup2
    simp only [List.map_cons, List.nodup_cons] at hnodup2
    have hrest_maps : ∀ x ∈ rest, x.state.map ∈ bfsLiveMaps := fun x hx =>
      hmaps x (by rw [hf]; exact List.mem_cons_of_mem _ hx)
    have hrest_vis0 : ∀ x ∈ rest, x.refId ∉ M.visited := fun x hx =>
      hvis x (by rw [hf]; exact List.mem_cons_of_mem _ hx)
    have hrest_lt : ∀ x ∈ rest, x.refId < M.ctr := fun x hx =>
      hlt x (by rw [hf]; exact List.mem_cons_of_mem _ hx)
    have hctrfresh : M.ctr ∉ erid :: M.visited := by
      intro hmem2
      rcases List.mem_cons.1 hmem2 with h2 | h2
      · omega
      · exact absurd (hvlt _ h2) (by omega)
    have hctrfresh2 : M.ctr + 1 ∉ erid :: M.visited := by
      intro hmem2
      rcases List.mem_cons.1 hmem2 with h2 | h2
      · omega
      · exact absurd (hvlt _ h2) (by omega)
    have hrest_vis : ∀ x ∈ rest, x.refId ∉ erid :: M.visited := by
      intro x hx hv
      rcases List.mem_cons.1 hv with h2 | h2
      · exact hnodup2.1 (h2 ▸ List.mem_map_of_mem (fun e => e.refId) hx)
      · exact hrest_vis0 x hx h2
    simp only [bfsLiveMaps, List.mem_cons, List.not_mem_nil, or_false] at hmapE
    rcases hmapE with h1 | h1 | h1 <;> subst h1
    · have hexp := expand_mapA ecost erid epath (erid :: M.visited) M.ctr
        (List.mem_cons_self _ _) hctrfresh
      refine ⟨⟨rest ++ [⟨GameState.mk mapB (ecost + 1), M.ctr, epath ++ ['R']⟩],
          erid :: M.visited, M.ctr + 1⟩, ?_, ?_⟩
      · unfold stepAt
        rw [hf]
        simp [checkA, hvisE, hexp, except_bind_ok, pure, Except.pure]
      · refine bfsInv_rebuild rest _ M.visited erid M.ctr (M.ctr + 1)
          hrest_maps hrest_vis0 hrest_lt hnodup2.2 hltE hnodup2.1 hvlt (by omega)
          (by simp) ?_ ?_ ?_ ?_
        · intro x hx
          simp only [List.mem_singleton] at hx
          subst hx
          simp [bfsLiveMaps]
        · intro x hx
          simp only [List.mem_singleton] at hx
          subst hx
          dsimp only
          omega
        · intro x hx
          simp only [List.mem_singleton] at hx
          subst hx
          simp
        · simp
    · have hexp := expand_mapB ecost erid epath (erid :: M.visited) M.ctr
        (List.mem_cons_self _ _) hctrfresh hctrfresh2
      refine ⟨⟨rest ++ [⟨GameState.mk mapC (ecost + 1), M.ctr, epath ++ ['D']⟩,
          ⟨GameState.mk mapA (ecost + 1), M.ctr + 1, epath ++ ['L']⟩],
          erid :: M.visited, M.ctr + 2⟩, ?_, ?_⟩
      · unfold stepAt
        rw [hf]
        simp [checkB, hvisE, hexp, except_bind_ok, pure, Except.pure]
      · refine bfsInv_rebuild rest _ M.visited erid M.ctr (M.ctr + 2)
          hrest_maps hrest_vis0 hrest_lt hnodup2.2 hltE hnodup2.1 hvlt (by omega)
          (by simp) ?_ ?_ ?_ ?_
        · intro x hx
          rcases List.mem_cons.1 hx with h2 | h2
          · subst h2
            simp [bfsLiveMaps]
          · simp only [List.mem_singleton] at h2
            subst h2
            simp [bfsLiveMaps]
        · intro x hx
          rcases List.mem_cons.1 hx with h2 | h2
          · subst h2
            dsimp only
            omega
          · simp only [List.mem_singleton] at h2
            subst h2
            dsimp only
            omega
        · intro x hx
          rcases List.mem_cons.1 hx with h2 | h2
          · subst h2
            dsimp only
            omega
          · simp only [List.mem_singleton] at h2
            subst h2
            dsimp only
            omega
        · simp
    · have hexp := expand_mapC ecost erid epath (erid :: M.visited) M.ctr
        (List.mem_cons_self _ _) hctrfresh
      refine ⟨⟨rest ++ [⟨GameState.mk mapB (ecost + 1), M.ctr, epath ++ ['U']⟩],
          erid :: M.visited, M.ctr + 1⟩, ?_, ?_⟩
      · unfold stepAt
        rw [hf]
        simp [checkC, hvisE, hexp, except_bind_ok, pure, Except.pure]
      · refine bfsInv_rebuild rest _ M.visited erid M.ctr (M.ctr + 1)
          hrest_maps hrest_vis0 hrest_lt hnodup2.2 hltE hnodup2.1 hvlt (by omega)
          (by simp) ?_ ?_ ?_ ?_
        · intro x hx
          simp only [List.mem_singleton] at hx
          subst hx
          simp [bfsLiveMaps]
        · intro x hx
          simp only [List.mem_singleton] at hx
          subst hx
          dsimp only
          omega
        · intro x hx
          simp only [List.mem_singleton] at hx
          subst hx
          simp
        · simp

/-- The invariant propagates through any number of FIFO iterations, so the
run is still `.running` after every fuel bound. -/
theorem bfsInv_run (n : Nat) :
    ∀ M, bfsInv M →
      ∃ M2, runSteps M (List.replicate n 0) = .running M2 ∧ bfsInv M2 := by
  induction n with
  | zero => exact fun M h => ⟨M, rfl, h⟩
  | succ n ih =>
    intro M h
    obtain ⟨M2, hstep, hinv⟩ := bfsInv_step h
    rw [List.replicate_succ]
    unfold runSteps
    rw [hstep]
    exact ih M2 hinv

/-- The initial machine on `mapA` satisfies the invariant. -/
theorem bfsInv_init : bfsInv (initMachine (GameState.mk mapA 0)) := by
  refine ⟨by simp [initMachine], ?_, ?_, ?_, ?_, ?_⟩ <;>
    simp [initMachine, bfsLiveMaps]

/-- C3: on the unsolvable grid `mapA` (box wedged against the bottom wall,
target unreachable) the claim expects every strategy to exhaust its
frontier and return `None`.  Instead: `bfs` never terminates — after any
number of iterations the loop is still running, because the identity-based
visited set never recognises a revisited layout — and `ucs` raises
TypeError at its third `frontier.put`, when the heap compares two
equal-priority tuples and falls through to ordering two `GameState`
objects. -/
theorem unsolvable_grid_bfs_loops_forever_and_ucs_raises :
    (∀ n : Nat, ∃ M, bfsRun (GameState.mk mapA 0) n = .running M) ∧
    ucsRun (GameState.mk mapA 0) 20 = .errored .typeError := by
  constructor
  · intro n
    obtain ⟨M2, hrun, _⟩ := bfsInv_run n (initMachine (GameState.mk mapA 0)) bfsInv_init
    exact ⟨M2, hrun⟩
  · rfl

/-- C4: the claim states the search loop never raises once dispatch has
accepted the strategy, in particular that the priority-queue strategies
tolerate equal priority keys.  On `mapA`, `astar` and `greedy` both crash
with TypeError while inserting a frontier entry whose priority ties an
existing entry: the tuple comparison reaches the `GameState` components,
which support neither `==` (beyond identity) nor `<`. -/
theorem astar_and_greedy_tie_comparison_raises_typeError :
    astarRun (GameState.mk mapA 0) 20 = .errored .typeError ∧
    greedyRun (GameState.mk mapA 0) 20 = .errored .typeError :=
  ⟨rfl, rfl⟩

/-- C1: the claim states that construction succeeds for every rectangular
grid with a player cell and derives the documented fields.  In fact
`GameState.__init__` assigns `self.height` and `self.width` only *after*
calling `find_player` (then `find_boxes`, `find_targets`), and `find_player`
begins with `for i in range(self.height)`; the attribute read therefore
raises AttributeError on every grid whatsoever, and no `GameState` is ever
constructed successfully. -/
theorem init_always_raises_attributeError :
    ∀ (m : Grid) (cost : Nat), GameState.init m cost = .error .attributeError :=
  fun _ _ => rfl

/-- C2: the claim states that the visited-set equality holds iff the grids
are cell-for-cell identical.  `GameState` defines no `__eq__`/`__hash__`,
so Python falls back to reference identity: two states constructed
independently from the identical grid (here with path costs 0 and 5) are
distinct objects and compare unequal, refuting the claim. -/
theorem visited_equality_is_identity_not_grid :
    (PyRef.mk (GameState.mk [['@', '$', '.']] 0) 12).state.map =
      (PyRef.mk (GameState.mk [['@', '$', '.']] 5) 13).state.map ∧
    pyDefaultEq (PyRef.mk (GameState.mk [['@', '$', '.']] 0) 12)
      (PyRef.mk (GameState.mk [['@', '$', '.']] 5) 13) = false :=
  ⟨rfl, rfl⟩

/-- C5: the claim states that when a pushed box leaves a `'*'` cell the
vacated cell keeps its target marking, so the entering player is recorded
as `'+'`.  The code only checks `self.map[new_position] == '.'` before
writing `'@'`, so pushing the box off `#@* #` yields `# @$#`: the vacated
cell holds a plain `'@'` and the target is destroyed. -/
theorem push_off_target_loses_target_marking :
    moveTag (GameState.mk mapStar 0) 'R' =
      .ok (some (GameState.mk mapStarPushed 1)) ∧
    mapGet mapStarPushed (1, 2) = .ok '@' :=
  ⟨rfl, rfl⟩

/-- C9: for a direction outside `{'U','D','L','R'}`, `move` raises before
any successor computation: `raise ValueError('Invalid direction')` when the
state has a player, and (even earlier) the unpacking `i, j = self.player`
raises TypeError when `player` is `None`.  The input state is untouched in
either case. -/
theorem invalid_direction_raises (s : GameState) (d : Char)
    (hd : ¬(d = 'U' ∨ d = 'D' ∨ d = 'L' ∨ d = 'R')) :
    (∀ pi pj, find_player s.map = some (pi, pj) → moveTag s d = .error .valueError) ∧
    (find_player s.map = none → moveTag s d = .error .typeError) := by
  constructor
  · intro pi pj hp
    unfold moveTag
    rw [hp]
    simp only [if_neg hd]
  · intro hp
    unfold moveTag
    rw [hp]

/-- Witness for C9 at the 1×1 grid `@` and direction `'X'`. -/
theorem invalid_direction_raises_witness :
    moveTag (GameState.mk [['@']] 0) 'X' = .error .valueError :=
  (invalid_direction_raises (GameState.mk [['@']] 0) 'X' (by decide)).1 0 0 rfl

end Sokoban
